import Mathlib

/-!
# media-storage-service: file model, per-note storage and the bearer-token gate

A shallow embedding of the Go sources

* `internal/storage/storage.go`  (`File`, `NewFile`, `minioStorage`),
* `internal/storage/service.go`  (`Service`),
* `pkg/minio/client.go`          (`Client`),
* `internal/rest/middleware.go`  (`handler.auth`, `parseToken`),
* `internal/rest/handler.go`     (`getFile`, `getFilesByNoteUUID`, `createFile`, `deleteFile`),
* `internal/apperror/errHandler.go` (`HandleError`),

followed by the properties established about them.

Conventions of the embedding.

* A Go `[]byte` is a `List Nat`; every place where Go converts a byte to a wider
  integer reduces it modulo 256, 32-bit words are reduced modulo `2 ^ 32`.
* A Go `string` is an immutable byte sequence, so it is a `List Nat` as well and
  the conversion `[]byte(s)` is the identity.
* A Go function returning `(T, error)` returns `Except Error T`; one returning only
  `error` returns `Option Error` (`none` is `nil`).
* Calls that change the object store thread the store state explicitly.
* The text of `wrap` is the format string of the source, its arguments left out.
* Logging is left out, and so is the expiry of the timeouts; the cancellation of a
  request context when the function that made it returns (`defer cancel()`) is kept
  where a value outlives the function: see `minio.Client.GetFile`.
-/

set_option autoImplicit false

/-- Byte sequences, also used for Go strings. -/
abbrev Bytes := List Nat

/-- The bytes of an ASCII literal of the sources. -/
def ascii (s : String) : Bytes := s.toList.map Char.toNat

/-! ## Errors -/

namespace apperror

/-- Modelled from the spec: the declaration of `AppError` and of its sentinel values
is in a file of package `apperror` that is not among the sources; only the kind of
the error is kept (section 7 of the specification names the kinds). -/
inductive AppError where
  | notFound
  | alreadyExist
  | badRequest (message : String)
  | system (message : String)
deriving DecidableEq, Repr

end apperror

/-- Go error values. `sentinel` is a value made by `errors.New`,
identified by its text; `wrap msg e` is `fmt.Errorf(msg + "%w", e)`; `validation` is a
`*jwt.ValidationError` of golang-jwt with its `Errors` bit field and its `Inner` error,
`validationText` one that carries only a text. -/
inductive Error where
  | EOF
  | sentinel (text : String)
  | app (e : apperror.AppError)
  | wrap (msg : String) (inner : Error)
  | validation (errors : Nat) (inner : Error)
  | validationText (errors : Nat) (text : String)
deriving DecidableEq, Repr

namespace apperror

/-- The sentinel `apperror.ErrNotFound`. -/
def ErrNotFound : Error := .app .notFound

/-- The sentinel `apperror.ErrAlreadyExist`. -/
def ErrAlreadyExist : Error := .app .alreadyExist

end apperror

/-! ## Readers -/

/-- An `io.Reader` as seen by a caller that drains it: the bytes it delivers until it
ends, and the error it ends with (`none` for a clean end of stream). -/
structure Reader where
  data : Bytes
  err : Option Error
deriving DecidableEq, Repr

/-- The function `ioutil.ReadAll`. -/
def ReadAll (r : Reader) : Bytes × Option Error := (r.data, r.err)

/-- The function `bytes.NewBuffer`: a reader over a byte slice, which cannot fail. -/
def NewBuffer (b : Bytes) : Reader := ⟨b, none⟩

/-! ## crypto/sha256 (FIPS 180-4) -/

namespace sha256

/-- Round constants. -/
def K : List Nat := [
  0x428a2f98, 0x71374491, 0xb5c0fbcf, 0xe9b5dba5, 0x3956c25b, 0x59f111f1, 0x923f82a4, 0xab1c5ed5,
  0xd807aa98, 0x12835b01, 0x243185be, 0x550c7dc3, 0x72be5d74, 0x80deb1fe, 0x9bdc06a7, 0xc19bf174,
  0xe49b69c1, 0xefbe4786, 0x0fc19dc6, 0x240ca1cc, 0x2de92c6f, 0x4a7484aa, 0x5cb0a9dc, 0x76f988da,
  0x983e5152, 0xa831c66d, 0xb00327c8, 0xbf597fc7, 0xc6e00bf3, 0xd5a79147, 0x06ca6351, 0x14292967,
  0x27b70a85, 0x2e1b2138, 0x4d2c6dfc, 0x53380d13, 0x650a7354, 0x766a0abb, 0x81c2c92e, 0x92722c85,
  0xa2bfe8a1, 0xa81a664b, 0xc24b8b70, 0xc76c51a3, 0xd192e819, 0xd6990624, 0xf40e3585, 0x106aa070,
  0x19a4c116, 0x1e376c08, 0x2748774c, 0x34b0bcb5, 0x391c0cb3, 0x4ed8aa4a, 0x5b9cca4f, 0x682e6ff3,
  0x748f82ee, 0x78a5636f, 0x84c87814, 0x8cc70208, 0x90befffa, 0xa4506ceb, 0xbef9a3f7, 0xc67178f2]

/-- Truncation to a 32-bit word. -/
def w32 (x : Nat) : Nat := x % 2 ^ 32

/-- Rotation of a 32-bit word to the right. -/
def rotr (x n : Nat) : Nat := ((x >>> n) ||| (x <<< (32 - n))) % 2 ^ 32

/-- The `n` low bytes of `x`, most significant first. -/
def beBytes : Nat → Nat → Bytes
  | 0, _ => []
  | n + 1, x => (x >>> (8 * n)) % 256 :: beBytes n x

/-- Message padding: the byte 0x80, zero bytes up to 56 modulo 64, then the length
in bits on eight bytes. -/
def pad (m : Bytes) : Bytes :=
  m ++ 0x80 :: List.replicate ((119 - m.length % 64) % 64) 0 ++ beBytes 8 (8 * m.length % 2 ^ 64)

/-- The big-endian 32-bit word at the head of `b`. -/
def word (b : Bytes) : Nat :=
  (b.getD 0 0 % 256) <<< 24 ||| (b.getD 1 0 % 256) <<< 16 |||
    (b.getD 2 0 % 256) <<< 8 ||| (b.getD 3 0 % 256)

/-- The first `n` big-endian words of `b`. -/
def words : Nat → Bytes → List Nat
  | 0, _ => []
  | n + 1, b => word b :: words n (b.drop 4)

/-- Message schedule, newest word first: `w` holds `W[t-1], W[t-2], ...`. -/
def schedule : Nat → List Nat → List Nat
  | 0, w => w
  | n + 1, w =>
    let v1 := w.getD 1 0
    let v2 := w.getD 14 0
    let t1 := rotr v1 17 ^^^ rotr v1 19 ^^^ (v1 >>> 10)
    let t2 := rotr v2 7 ^^^ rotr v2 18 ^^^ (v2 >>> 3)
    schedule n (w32 (t1 + w.getD 6 0 + t2 + w.getD 15 0) :: w)

/-- The eight working variables. -/
structure St where
  a : Nat
  b : Nat
  c : Nat
  d : Nat
  e : Nat
  f : Nat
  g : Nat
  h : Nat
deriving DecidableEq, Repr

/-- One round, on the pair of the round constant and the schedule word. -/
def round (s : St) (kw : Nat × Nat) : St :=
  let t1 := s.h + (rotr s.e 6 ^^^ rotr s.e 11 ^^^ rotr s.e 25) +
    ((s.e &&& s.f) ^^^ ((s.e ^^^ (2 ^ 32 - 1)) &&& s.g)) + kw.1 + kw.2
  let t2 := (rotr s.a 2 ^^^ rotr s.a 13 ^^^ rotr s.a 22) +
    ((s.a &&& s.b) ^^^ (s.a &&& s.c) ^^^ (s.b &&& s.c))
  ⟨w32 (t1 + t2), s.a, s.b, s.c, w32 (s.d + t1), s.e, s.f, s.g⟩

/-- Compression of the 64-byte block at the head of `p`. -/
def block (s : St) (p : Bytes) : St :=
  let w := (schedule 48 (words 16 p).reverse).reverse
  let r := (K.zip w).foldl round s
  ⟨w32 (s.a + r.a), w32 (s.b + r.b), w32 (s.c + r.c), w32 (s.d + r.d),
   w32 (s.e + r.e), w32 (s.f + r.f), w32 (s.g + r.g), w32 (s.h + r.h)⟩

/-- Compression of the first `n` blocks of `p`. -/
def blocks : Nat → St → Bytes → St
  | 0, s, _ => s
  | n + 1, s, p => blocks n (block s p) (p.drop 64)

/-- The initial hash value. -/
def iv : St :=
  ⟨0x6a09e667, 0xbb67ae85, 0x3c6ef372, 0xa54ff53a, 0x510e527f, 0x9b05688c, 0x1f83d9ab, 0x5be0cd19⟩

/-- The digest bytes of a final state. -/
def digest (s : St) : Bytes :=
  beBytes 4 s.a ++ beBytes 4 s.b ++ beBytes 4 s.c ++ beBytes 4 s.d ++
  beBytes 4 s.e ++ beBytes 4 s.f ++ beBytes 4 s.g ++ beBytes 4 s.h

/-- The function `sha256.Sum256`: the 32-byte SHA-256 digest of `data`. -/
def Sum256 (data : Bytes) : Bytes :=
  let p := pad data
  digest (blocks (p.length / 64) iv p)

end sha256

/-! ## encoding/base64, `URLEncoding` -/

namespace base64

/-- The URL and filename safe alphabet of RFC 4648. -/
def encodeURL : Bytes :=
  ascii "ABCDEFGHIJKLMNOPQRSTUVWXYZabcdefghijklmnopqrstuvwxyz0123456789-_"

/-- The standard padding character `=`. -/
def StdPadding : Nat := 61

/-- The table lookup `enc.encode[i]`. -/
def enc (i : Nat) : Nat := encodeURL.getD i 0

/-- The method `URLEncoding.EncodeToString`: full groups of three bytes give four
characters, a remainder of one or two bytes gives two or three characters and padding. -/
def EncodeToString : Bytes → Bytes
  | a :: b :: c :: rest =>
    let val := (a % 256) <<< 16 ||| (b % 256) <<< 8 ||| (c % 256)
    enc (val >>> 18 &&& 0x3F) :: enc (val >>> 12 &&& 0x3F) :: enc (val >>> 6 &&& 0x3F) ::
      enc (val &&& 0x3F) :: EncodeToString rest
  | [a, b] =>
    let val := (a % 256) <<< 16 ||| (b % 256) <<< 8
    [enc (val >>> 18 &&& 0x3F), enc (val >>> 12 &&& 0x3F), enc (val >>> 6 &&& 0x3F), StdPadding]
  | [a] =>
    let val := (a % 256) <<< 16
    [enc (val >>> 18 &&& 0x3F), enc (val >>> 12 &&& 0x3F), StdPadding, StdPadding]
  | [] => []

end base64

/-! ## internal/storage: the file model -/

namespace storage

/-- The struct `File`. -/
structure File where
  ID : Bytes
  Name : Bytes
  Size : Int
  Bytes : List Nat
deriving DecidableEq, Repr

/-- The struct `CreateFileDTO`. -/
structure CreateFileDTO where
  Name : Bytes
  Size : Int
  Reader : Reader
deriving DecidableEq, Repr

/-- The function `NewFile` of storage.go. The second test of `err` in the source
comes after the first one returned on a non-nil `err`, so it never fires. -/
def NewFile (dto : CreateFileDTO) : Except Error File :=
  match ReadAll dto.Reader with
  | (_, some err) => .error (.wrap "failed to create file model. err: %w" err)
  | (bytes, none) =>
    let sum := sha256.Sum256 (dto.Name ++ bytes)
    let name := base64.EncodeToString sum
    .ok { ID := name, Name := dto.Name, Size := dto.Size, Bytes := bytes }

end storage

/-! ## The object store SDK (minio-go v7), as far as the sources call it -/

namespace sdk

/-- The struct `minio.ObjectInfo`, restricted to the fields the sources read. The
store reports a byte count, so `Size` is a natural number. -/
structure ObjectInfo where
  Key : Bytes
  Size : Nat
  UserMetadata : List (Bytes × Bytes)
deriving DecidableEq, Repr

/-- An opened `*minio.Object`: what `Stat` answers, and what one call of `Read` with a
buffer of the given length delivers and returns. -/
structure Object where
  Stat : Except Error ObjectInfo
  Read : Nat → Bytes × Option Error

/-- The call `obj.Read(buffer)` on a buffer fresh from `make([]byte, size)`: the buffer
afterwards and the returned error. A read never delivers more than the buffer holds. -/
def Object.readInto (o : Object) (size : Nat) : Bytes × Option Error :=
  let got := (o.Read size).1.take size
  (got ++ List.replicate (size - got.length) 0, (o.Read size).2)

/-- The error `context.Canceled`. -/
def Canceled : Error := .sentinel "context canceled"

/-- An object handle whose context was cancelled before its first request: the SDK
opens lazily, the first `Stat` or `Read` is what asks the store, on the context that was
handed to `GetObject`; on a cancelled context both fail with `context.Canceled` and
nothing is delivered. -/
def Object.afterCancel (_ : Object) : Object :=
  { Stat := .error Canceled
    Read := fun _ => ([], some Canceled) }

/-- One element of the channel returned by `ListObjects`: `Err` is set when the
listing failed, `Key` is the key of a listed object otherwise. -/
structure ListEntry where
  Err : Option Error
  Key : Bytes
deriving DecidableEq, Repr

/-- The calls of `*minio.Client` that the sources make, over a store state `σ`. -/
structure Client (σ : Type) where
  BucketExists : σ → Bytes → Bool × Option Error
  MakeBucket : σ → Bytes → σ × Option Error
  PutObject : σ → Bytes → Bytes → Reader → Int → List (Bytes × Bytes) → σ × Option Error
  GetObject : σ → Bytes → Bytes → Except Error Object
  ListObjects : σ → Bytes → List ListEntry
  RemoveObject : σ → Bytes → Bytes → σ × Option Error

/-- The lookup `m[key]` in a Go map of strings: the empty string when absent. -/
def mapGet (m : List (Bytes × Bytes)) (key : Bytes) : Bytes := (m.lookup key).getD []

end sdk

/-! ## pkg/minio/client.go -/

namespace minio

variable {σ : Type}

/-- The method `Client.GetFile`. The object is opened on `reqCtx`, and the deferred
`cancel()` cancels `reqCtx` when the method returns: the caller receives a handle that
has made no request yet and whose context is cancelled. -/
def Client.GetFile (c : sdk.Client σ) (s : σ) (bucketName fileID : Bytes) :
    Except Error sdk.Object :=
  match c.GetObject s bucketName fileID with
  | .error err =>
    .error (.wrap "failed to get file with id: %s from minio bucket %s. err: %w" err)
  | .ok obj => .ok obj.afterCancel

/-- The body of the loop of `Client.GetBucketFiles` for one listed element. -/
def Client.GetBucketFiles.step (c : sdk.Client σ) (s : σ) (bucketName : Bytes)
    (files : List sdk.Object) (lobj : sdk.ListEntry) : List sdk.Object :=
  match lobj.Err with
  | some _ => files
  | none =>
    match c.GetObject s bucketName lobj.Key with
    | .error _ => files
    | .ok object => files ++ [object]

/-- The method `Client.GetBucketFiles`: its error result is always nil. -/
def Client.GetBucketFiles (c : sdk.Client σ) (s : σ) (bucketName : Bytes) :
    List sdk.Object × Option Error :=
  ((c.ListObjects s bucketName).foldl (Client.GetBucketFiles.step c s bucketName) [], none)

/-- The tail of `Client.UploadFile`: the call of `PutObject` and the test of its error. -/
def Client.UploadFile.put (c : sdk.Client σ) (s : σ) (fileID fileName bucketName : Bytes)
    (fileSize : Int) (reader : Reader) : σ × Option Error :=
  match c.PutObject s bucketName fileID reader fileSize [(ascii "Name", fileName)] with
  | (s2, some err) => (s2, some (.wrap "failed to upload file. err: %w" err))
  | (s2, none) => (s2, none)

/-- The method `Client.UploadFile`. -/
def Client.UploadFile (c : sdk.Client σ) (s : σ) (fileID fileName bucketName : Bytes)
    (fileSize : Int) (reader : Reader) : σ × Option Error :=
  let (found, errBucketExists) := c.BucketExists s bucketName
  if errBucketExists ≠ none ∨ found = false then
    match c.MakeBucket s bucketName with
    | (s1, some err) => (s1, some (.wrap "failed to create new bucket. err: %w" err))
    | (s1, none) => Client.UploadFile.put c s1 fileID fileName bucketName fileSize reader
  else
    Client.UploadFile.put c s fileID fileName bucketName fileSize reader

/-- The method `Client.DeleteFile`. -/
def Client.DeleteFile (c : sdk.Client σ) (s : σ) (noteUUID fileName : Bytes) :
    σ × Option Error :=
  match c.RemoveObject s noteUUID fileName with
  | (s1, some err) => (s1, some (.wrap "failed to delete file. err: %w" err))
  | (s1, none) => (s1, none)

end minio

/-! ## internal/storage/storage.go: `minioStorage` -/

namespace storage

variable {σ : Type}

/-- The statements of `minioStorage.GetFile` after the object was obtained (storage.go
78 to 93): `Stat`, one `Read` into a buffer of the declared size, and the file. -/
def minioStorage.GetFile.fromObject (obj : sdk.Object) : Except Error File :=
  match obj.Stat with
  | .error err => .error (.wrap "failed to get file. err: %w" err)
  | .ok objectInfo =>
    match obj.readInto objectInfo.Size with
    | (buffer, err) =>
      if err ≠ none ∧ err ≠ some Error.EOF then
        .error (.wrap "failed to get objects. err: %w" (err.getD Error.EOF))
      else
        .ok { ID := objectInfo.Key
              Name := sdk.mapGet objectInfo.UserMetadata (ascii "Name")
              Size := objectInfo.Size
              Bytes := buffer }

/-- The method `minioStorage.GetFile`. -/
def minioStorage.GetFile (c : sdk.Client σ) (s : σ) (bucketName fileID : Bytes) :
    Except Error File :=
  match minio.Client.GetFile c s bucketName fileID with
  | .error err => .error (.wrap "failed to get file. err: %w" err)
  | .ok obj => minioStorage.GetFile.fromObject obj

/-- The body of the loop of `minioStorage.GetFilesByNoteUUID` for one object. -/
def minioStorage.GetFilesByNoteUUID.step (files : List File) (obj : sdk.Object) : List File :=
  match obj.Stat with
  | .error _ => files
  | .ok stat =>
    match obj.readInto stat.Size with
    | (buffer, err) =>
      if err ≠ none ∧ err ≠ some Error.EOF then files
      else
        files ++ [{ ID := stat.Key
                    Name := sdk.mapGet stat.UserMetadata (ascii "Name")
                    Size := stat.Size
                    Bytes := buffer }]

/-- The method `minioStorage.GetFilesByNoteUUID`. -/
def minioStorage.GetFilesByNoteUUID (c : sdk.Client σ) (s : σ) (noteUUID : Bytes) :
    Except Error (List File) :=
  match minio.Client.GetBucketFiles c s noteUUID with
  | (_, some err) => .error (.wrap "failed to get objects. err: %w" err)
  | (objects, none) =>
    if objects.length = 0 then .error apperror.ErrNotFound
    else .ok (objects.foldl minioStorage.GetFilesByNoteUUID.step [])

/-- The method `minioStorage.CreateFile`. -/
def minioStorage.CreateFile (c : sdk.Client σ) (s : σ) (noteUUID : Bytes) (file : File) :
    σ × Option Error :=
  match minio.Client.UploadFile c s file.ID file.Name noteUUID file.Size (NewBuffer file.Bytes) with
  | (s1, some err) => (s1, some err)
  | (s1, none) => (s1, none)

/-- The method `minioStorage.DeleteFile`. -/
def minioStorage.DeleteFile (c : sdk.Client σ) (s : σ) (noteUUID fileID : Bytes) :
    σ × Option Error :=
  match minio.Client.DeleteFile c s noteUUID fileID with
  | (s1, some err) => (s1, some err)
  | (s1, none) => (s1, none)

/-! ## internal/storage/service.go -/

/-- The method `Service.GetFile`. -/
def Service.GetFile (c : sdk.Client σ) (s : σ) (noteUUID fileID : Bytes) : Except Error File :=
  match minioStorage.GetFile c s noteUUID fileID with
  | .error err => .error err
  | .ok f => .ok f

/-- The method `Service.GetFilesByNoteUUID`. -/
def Service.GetFilesByNoteUUID (c : sdk.Client σ) (s : σ) (noteUUID : Bytes) :
    Except Error (List File) :=
  match minioStorage.GetFilesByNoteUUID c s noteUUID with
  | .error err => .error err
  | .ok files => .ok files

/-- The method `Service.Create`. -/
def Service.Create (c : sdk.Client σ) (s : σ) (noteUUID : Bytes) (dto : CreateFileDTO) :
    σ × Option Error :=
  match NewFile dto with
  | .error err => (s, some err)
  | .ok file =>
    match minioStorage.CreateFile c s noteUUID file with
    | (s1, some err) => (s1, some err)
    | (s1, none) => (s1, none)

/-- The method `Service.Delete`. -/
def Service.Delete (c : sdk.Client σ) (s : σ) (noteUUID fileName : Bytes) : σ × Option Error :=
  match minioStorage.DeleteFile c s noteUUID fileName with
  | (s1, some err) => (s1, some err)
  | (s1, none) => (s1, none)

end storage

/-! ## A store that keeps what is written -/

namespace memstore

/-- A stored object: its content and its user metadata. -/
structure Stored where
  content : Bytes
  userMeta : List (Bytes × Bytes)
deriving DecidableEq, Repr

/-- Modelled from the spec: the object store behind the SDK is not part of the sources;
section 6 describes it as containers of keyed objects with metadata. The state maps a
container name to its objects, each key occurring once. -/
abbrev Store := List (Bytes × List (Bytes × Stored))

/-- The store's answer for a container that does not exist. -/
def ErrNoSuchBucket : Error := .sentinel "The specified bucket does not exist"

/-- The store's answer for a key that does not exist. -/
def ErrNoSuchKey : Error := .sentinel "The specified key does not exist."

/-- The store's answer when a container is created a second time. -/
def ErrBucketAlreadyOwnedByYou : Error :=
  .sentinel "Your previous request to create the named bucket succeeded and you already own it."

/-- The store's answer when fewer or more bytes arrive than were declared. -/
def ErrSizeMismatch : Error := .sentinel "declared size does not match the bytes sent"

/-- Replaces or adds the object stored under `key`. -/
def putKey (objs : List (Bytes × Stored)) (key : Bytes) (v : Stored) : List (Bytes × Stored) :=
  (key, v) :: objs.filter (fun kv => kv.1 ≠ key)

/-- Replaces the objects of container `bucket`. -/
def setBucket (s : Store) (bucket : Bytes) (objs : List (Bytes × Stored)) : Store :=
  (bucket, objs) :: s.filter (fun b => b.1 ≠ bucket)

/-- The object handle for a stored object: `Stat` reports the key, the length of the
content and the metadata; `Read` delivers the content from its start and ends with
`io.EOF` once the end of the content is reached. -/
def opened (key : Bytes) (v : Stored) : sdk.Object :=
  { Stat := .ok ⟨key, v.content.length, v.userMeta⟩
    Read := fun n => (v.content.take n, if v.content.length ≤ n then some Error.EOF else none) }

/-- The object handle for a key that is not stored: the SDK opens lazily, so the
failure shows at `Stat` and `Read`. -/
def missing (err : Error) : sdk.Object :=
  { Stat := .error err
    Read := fun _ => ([], some err) }

/-- The SDK calls on the store. A write needs its container, replaces the object
under the key and is refused when the reader fails or when a declared non-negative
size differs from the number of bytes sent. -/
def client : sdk.Client Store where
  BucketExists := fun s bucket => ((s.lookup bucket).isSome, none)
  MakeBucket := fun s bucket =>
    match s.lookup bucket with
    | some _ => (s, some ErrBucketAlreadyOwnedByYou)
    | none => ((bucket, []) :: s, none)
  PutObject := fun s bucket key reader size userMeta =>
    match reader.err with
    | some err => (s, some err)
    | none =>
      match s.lookup bucket with
      | none => (s, some ErrNoSuchBucket)
      | some objs =>
        if 0 ≤ size ∧ size ≠ (reader.data.length : Int) then (s, some ErrSizeMismatch)
        else (setBucket s bucket (putKey objs key ⟨reader.data, userMeta⟩), none)
  GetObject := fun s bucket key =>
    match s.lookup bucket with
    | none => .ok (missing ErrNoSuchBucket)
    | some objs =>
      match objs.lookup key with
      | none => .ok (missing ErrNoSuchKey)
      | some v => .ok (opened key v)
  ListObjects := fun s bucket =>
    match s.lookup bucket with
    | none => [⟨some ErrNoSuchBucket, []⟩]
    | some objs => objs.map (fun kv => ⟨none, kv.1⟩)
  RemoveObject := fun s bucket key =>
    match s.lookup bucket with
    | none => (s, some ErrNoSuchBucket)
    | some objs => (setBucket s bucket (objs.filter (fun kv => kv.1 ≠ key)), none)

end memstore

/-- A store keeps what is written: after `PutObject` succeeded for `content` under a
key, `GetObject` opens under that key an object whose `Stat` reports the key, the
number of bytes of the content and the metadata of the write, and whose `Read` into a
buffer of `n` bytes delivers the first `n` bytes of the content and returns nil or
`io.EOF`. -/
def KeepsWrites {σ : Type} (c : sdk.Client σ) : Prop :=
  ∀ (s s1 : σ) (bucket key content : Bytes) (size : Int) (userMeta : List (Bytes × Bytes)),
    c.PutObject s bucket key ⟨content, none⟩ size userMeta = (s1, none) →
    ∃ obj, c.GetObject s1 bucket key = .ok obj ∧
      obj.Stat = .ok ⟨key, content.length, userMeta⟩ ∧
      ∀ n, (obj.Read n).1 = content.take n ∧
        ((obj.Read n).2 = none ∨ (obj.Read n).2 = some Error.EOF)

/-! ## The listing, as the specification words it -/

namespace storage

/-- The file of a healthy object, in the words of the specification: an object whose
`Stat` fails, or whose read ends with an error other than end-of-stream, has none;
otherwise the file carries the key, the metadata entry Name, the declared size and the
buffer of that size after the read. -/
def healthyFile (obj : sdk.Object) : Option File :=
  match obj.Stat with
  | .error _ => none
  | .ok stat =>
    if (obj.readInto stat.Size).2 = none ∨ (obj.readInto stat.Size).2 = some Error.EOF then
      some { ID := stat.Key
             Name := sdk.mapGet stat.UserMetadata (ascii "Name")
             Size := stat.Size
             Bytes := (obj.readInto stat.Size).1 }
    else none

end storage

/-! ## A scripted store, for concrete cases -/

namespace scripted

/-- What a scripted store answers: the elements `ListObjects` sends, the result of
`GetObject` per key, and the results of `BucketExists`, `MakeBucket` and `PutObject`. -/
structure Script where
  listing : List sdk.ListEntry
  opening : Bytes → Except Error sdk.Object
  bucketExists : Bool × Option Error
  makeBucket : Option Error
  putObject : Option Error

/-- The SDK calls answered from a script. The state is the record of the writes that
reached the store: the container, the key and the bytes of every `PutObject`. -/
def client (sc : Script) : sdk.Client (List (Bytes × Bytes × Bytes)) where
  BucketExists := fun _ _ => sc.bucketExists
  MakeBucket := fun s _ => (s, sc.makeBucket)
  PutObject := fun s bucket key reader _ _ => (s ++ [(bucket, key, reader.data)], sc.putObject)
  GetObject := fun _ _ key => sc.opening key
  ListObjects := fun _ _ => sc.listing
  RemoveObject := fun s _ _ => (s, none)

/-- An object that answers `Stat` with the key and the length of `content` and delivers
`content` on `Read`, ending with `io.EOF`. -/
def healthy (key name content : Bytes) : sdk.Object :=
  { Stat := .ok ⟨key, content.length, [(ascii "Name", name)]⟩
    Read := fun n => (content.take n, some Error.EOF) }

/-- An object whose `Stat` succeeds and whose `Read` fails. -/
def unreadable (key : Bytes) (size : Nat) : sdk.Object :=
  { Stat := .ok ⟨key, size, []⟩
    Read := fun _ => ([], some (.sentinel "connection reset")) }

/-- An object whose `Stat` fails. -/
def unstatable : sdk.Object :=
  { Stat := .error (.sentinel "The specified key does not exist.")
    Read := fun _ => ([], some (.sentinel "The specified key does not exist.")) }

end scripted

/-! ## errors.Is -/

/-- The function `errors.Is` for a sentinel target: the error itself or an error of its
chain is the target. An error made by `fmt.Errorf` with `%w` unwraps to the wrapped
error; whether a `*jwt.ValidationError` unwraps to its `Inner` error depends on the
release of golang-jwt and is the parameter `unwrapsInner`. -/
def errorsIs (unwrapsInner : Bool) : Error → Error → Bool
  | .wrap msg inner, target =>
    if Error.wrap msg inner = target then true else errorsIs unwrapsInner inner target
  | .validation errors inner, target =>
    if Error.validation errors inner = target then true
    else if unwrapsInner then errorsIs unwrapsInner inner target else false
  | err, target => if err = target then true else false

/-! ## pkg/common -/

namespace common

/-- The sentinel `common.ErrInvalidSigningMethod`. -/
def ErrInvalidSigningMethod : Error := .sentinel "err invalid signing method"

/-- The sentinel `common.ErrInvalidAccessToken`. -/
def ErrInvalidAccessToken : Error := .sentinel "err invalid access token"

end common

/-! ## golang-jwt (import path github.com/golang-jwt/jwt), as far as `parseToken` uses it -/

namespace jwt

/-- The dynamic type of `token.Method`: `rsa` is `*SigningMethodRSA` (RS256, RS384,
RS512); every other registered method has another type. -/
inductive SigningMethod where
  | rsa
  | rsaPSS
  | ecdsa
  | hmac
  | unsecured
deriving DecidableEq, Repr

/-- A token after `ParseUnverified`, with the content of its segments: the signing
method of the header, the claim `id`, the bit field `Claims.Valid` reports for the
registered claims (0 when they are valid) with its error, whether the signature segment
is base64, and the RSA key pair whose private key signed the first two segments (RSA
is idealised: key pairs are numbered and the public key of a pair verifies exactly the
signatures made with its private key). -/
structure Token where
  Method : SigningMethod
  ID : Bytes
  claimsErrors : Nat
  claimsInner : Error
  signatureDecodes : Bool
  signedBy : Option Nat
  Valid : Bool
deriving DecidableEq, Repr

/-- The value a `Keyfunc` returns in an `interface{}`, with its dynamic type:
`rsaPublicKey k` is a `*rsa.PublicKey`, `rsaPublicKeyAddr k` is a `**rsa.PublicKey`, the
address of a variable that holds a `*rsa.PublicKey`. -/
inductive KeyValue where
  | rsaPublicKey (k : Nat)
  | rsaPublicKeyAddr (k : Nat)
deriving DecidableEq, Repr

/-- The parts of the library that are left open: the decoding of a token string, the
`Verify` of the methods other than RSA, and whether `ValidationError` has `Unwrap`. -/
structure Lib where
  ParseUnverified : Bytes → Except Error Token
  verifyOther : Token → KeyValue → Option Error
  unwrapsInner : Bool

/-- The sentinel `jwt.ErrInvalidKeyType`. -/
def ErrInvalidKeyType : Error := .sentinel "key is of invalid type"

/-- The sentinel `rsa.ErrVerification`. -/
def ErrVerification : Error := .sentinel "crypto/rsa: verification error"

/-- The error of `DecodeSegment` on a signature that is not base64. -/
def ErrDecodeSegment : Error := .sentinel "illegal base64 data"

/-- The constant `ValidationErrorUnverifiable`. -/
def ValidationErrorUnverifiable : Nat := 2

/-- The constant `ValidationErrorSignatureInvalid`. -/
def ValidationErrorSignatureInvalid : Nat := 4

/-- The method `SigningMethodRSA.Verify`: the signature is decoded, the key must be of
dynamic type `*rsa.PublicKey`, then the signature is verified with it. -/
def SigningMethodRSA.Verify (token : Token) (key : KeyValue) : Option Error :=
  if token.signatureDecodes = false then some ErrDecodeSegment
  else
    match key with
    | .rsaPublicKey k => if token.signedBy = some k then none else some ErrVerification
    | .rsaPublicKeyAddr _ => some ErrInvalidKeyType

/-- The call `token.Method.Verify`. -/
def Verify (lib : Lib) (token : Token) (key : KeyValue) : Option Error :=
  match token.Method with
  | .rsa => SigningMethodRSA.Verify token key
  | _ => lib.verifyOther token key

/-- The function `jwt.ParseWithClaims`: decode, look the key up, validate the claims,
verify the signature. The token is returned with `Valid` set when no error was found;
on an error only the error is kept, which is all `parseToken` reads. -/
def ParseWithClaims (lib : Lib) (tokenString : Bytes) (keyFunc : Token → Except Error KeyValue) :
    Except Error Token :=
  match lib.ParseUnverified tokenString with
  | .error err => .error err
  | .ok token =>
    match keyFunc token with
    | .error (.validation errors inner) => .error (.validation errors inner)
    | .error (.validationText errors text) => .error (.validationText errors text)
    | .error err => .error (.validation ValidationErrorUnverifiable err)
    | .ok key =>
      match Verify lib token key with
      | some err =>
        .error (.validation (token.claimsErrors ||| ValidationErrorSignatureInvalid) err)
      | none =>
        if token.claimsErrors = 0 then .ok { token with Valid := true }
        else .error (.validation token.claimsErrors token.claimsInner)

end jwt

/-! ## strings.Split -/

namespace strings

/-- The function `strings.Split` for a separator of one byte, as in the source: the
substrings between the separators, one more than there are separators. -/
def Split : Bytes → Nat → List Bytes
  | [], _ => [[]]
  | b :: rest, sep =>
    if b = sep then [] :: Split rest sep
    else
      match Split rest sep with
      | [] => [[b]]
      | part :: parts => (b :: part) :: parts

end strings

/-! ## internal/rest/middleware.go -/

namespace rest

/-- What the middleware did with a request: the status and the message of the error
response it wrote (none when it wrote nothing), the arguments of its calls of
`parseToken`, and the caller identity in the request context for every call of the
downstream handler. -/
structure Outcome where
  status : Option Nat
  message : Option String
  parsed : List Bytes
  served : List Bytes
deriving DecidableEq, Repr

/-- The method `Header.Get`: the first value of the header, the empty string when the
header is missing. -/
def headerGet (values : List Bytes) : Bytes := values.headD []

/-- The function `parseToken`. The key function returns `&key` where `key` holds a
`*rsa.PublicKey`, that is a value of dynamic type `**rsa.PublicKey`. -/
def parseToken (lib : jwt.Lib) (accessToken : Bytes) (key : Nat) : Except Error Bytes :=
  match jwt.ParseWithClaims lib accessToken (fun token =>
      if token.Method = jwt.SigningMethod.rsa then .ok (jwt.KeyValue.rsaPublicKeyAddr key)
      else .error common.ErrInvalidSigningMethod) with
  | .error err => .error err
  | .ok token =>
    if token.Valid then .ok token.ID
    else .error common.ErrInvalidAccessToken

/-- The method `handler.auth`, for the values of the header Authorization of a request
and the gate's public key. -/
def auth (lib : jwt.Lib) (key : Nat) (authorization : List Bytes) : Outcome :=
  let authHeader := headerGet authorization
  if authHeader = [] then ⟨some 401, some "Unauthorized", [], []⟩
  else
    let headerParts := strings.Split authHeader 32
    if headerParts.length ≠ 2 then ⟨some 401, some "Unauthorized", [], []⟩
    else if headerParts.getD 0 [] ≠ ascii "Bearer" then ⟨some 401, some "Unauthorized", [], []⟩
    else
      match parseToken lib (headerParts.getD 1 []) key with
      | .ok id => ⟨none, none, [headerParts.getD 1 []], [id]⟩
      | .error err =>
        if errorsIs lib.unwrapsInner err common.ErrInvalidAccessToken then
          ⟨some 401, some "Unauthorized", [headerParts.getD 1 []], []⟩
        else
          ⟨some 500, some "Internal server error", [headerParts.getD 1 []], []⟩

end rest

/-! ## Token strings for concrete cases -/

namespace fixture

/-- A decoder for two token strings: both are RS256 tokens with valid registered
claims and the claim `id` equal to u1; the first is signed with the private key of pair
1, the second with the private key of pair 2. Every other string is malformed. -/
def lib (unwrapsInner : Bool) : jwt.Lib where
  ParseUnverified := fun t =>
    if t = ascii "signed-by-1.u1" then
      .ok { Method := .rsa, ID := ascii "u1", claimsErrors := 0, claimsInner := .sentinel ""
            signatureDecodes := true, signedBy := some 1, Valid := false }
    else if t = ascii "signed-by-2.u1" then
      .ok { Method := .rsa, ID := ascii "u1", claimsErrors := 0, claimsInner := .sentinel ""
            signatureDecodes := true, signedBy := some 2, Valid := false }
    else .error (.validationText 1 "token contains an invalid number of segments")
  verifyOther := fun _ _ => some (.sentinel "signature is invalid")
  unwrapsInner := unwrapsInner

end fixture

/-! ## internal/apperror/errHandler.go -/

namespace apperror

/-- Modelled from the spec: the constructor `BadRequestError` is declared in the file of
package `apperror` that is not among the sources; it makes the validation error of
section 7 with the given message. -/
def BadRequestError (message : String) : Error := .app (.badRequest message)

/-- The function `errors.As` for a target of type `*AppError`: the first `AppError` of
the chain of the error, if there is one. -/
def errorsAs (unwrapsInner : Bool) : Error → Option AppError
  | .app e => some e
  | .wrap _ inner => errorsAs unwrapsInner inner
  | .validation _ inner => if unwrapsInner then errorsAs unwrapsInner inner else none
  | _ => none

/-- The body of a response: `marshal e` is `e.Marshal()` for an `AppError`, `system err`
is `systemError(err.Error()).Marshal()`. -/
inductive Body where
  | marshal (e : AppError)
  | system (err : Error)
deriving DecidableEq, Repr

/-- What `HandleError` did to the response writer: nothing, one `WriteHeader` followed
by one `Write`, or a run-time panic before anything was written. -/
inductive Written where
  | nothing
  | response (status : Nat) (body : Body)
  | panic
deriving DecidableEq, Repr

/-- The function `HandleError`. After `errors.As` found an `AppError` in the chain and
neither sentinel matched, the source converts `err` itself with the type assertion
`err.(*AppError)`, which panics when `err` is not an `*AppError`. -/
def HandleError (unwrapsInner : Bool) : Option Error → Written
  | none => .nothing
  | some err =>
    match errorsAs unwrapsInner err with
    | some _ =>
      if errorsIs unwrapsInner err ErrNotFound then .response 404 (.marshal .notFound)
      else if errorsIs unwrapsInner err ErrAlreadyExist then .response 409 (.marshal .notFound)
      else
        match err with
        | .app e => .response 400 (.marshal e)
        | _ => .panic
    | none => .response 418 (.system err)

end apperror

/-! ## internal/rest/handler.go -/

namespace rest

/-- A `*multipart.FileHeader`: the file name, the size and the result of `Open`. -/
structure FileHeader where
  Filename : Bytes
  Size : Int
  Open : Except Error Reader

/-- What the handlers read from a request: the query parameter note_uuid and the URL
parameter id (empty when missing), the result of `ParseMultipartForm`, the entry file
of the multipart form (none when the form has no such entry) and the form value
note_uuid (empty when missing). -/
structure Request where
  queryNoteUUID : Bytes
  urlParamID : Bytes
  parseMultipartForm : Option Error
  formFiles : Option (List FileHeader)
  formNoteUUID : Bytes

/-- A call of the File Service by a handler, with its arguments. -/
inductive Call where
  | GetFile (noteUUID fileID : Bytes)
  | GetFilesByNoteUUID (noteUUID : Bytes)
  | Create (noteUUID : Bytes) (dto : storage.CreateFileDTO)
  | Delete (noteUUID fileID : Bytes)
deriving DecidableEq, Repr

/-- The response of a handler: what `HandleError` wrote, the bytes of a file sent as an
attachment, the JSON of a list of files sent with status 200, or a bare status. -/
inductive Reply where
  | handled (w : apperror.Written)
  | file (name bytes : Bytes)
  | json (files : List storage.File)
  | status (code : Nat)
deriving DecidableEq, Repr

/-- The effect of a handler: the store afterwards, the response, and the calls of the
File Service it made. -/
structure Handled (σ : Type) where
  store : σ
  reply : Reply
  calls : List Call

variable {σ : Type}

/-- The method `handler.getFile`. -/
def getFile (unwrapsInner : Bool) (c : sdk.Client σ) (s : σ) (r : Request) : Handled σ :=
  let noteUUID := r.queryNoteUUID
  if noteUUID = [] then
    ⟨s, .handled (apperror.HandleError unwrapsInner
      (some (apperror.BadRequestError "note_uuid query parameter is required"))), []⟩
  else
    let fileID := r.urlParamID
    match storage.Service.GetFile c s noteUUID fileID with
    | .error err =>
      ⟨s, .handled (apperror.HandleError unwrapsInner (some err)), [.GetFile noteUUID fileID]⟩
    | .ok f => ⟨s, .file f.Name f.Bytes, [.GetFile noteUUID fileID]⟩

/-- The method `handler.getFilesByNoteUUID`; `json.Marshal` of a list of files cannot
fail. -/
def getFilesByNoteUUID (unwrapsInner : Bool) (c : sdk.Client σ) (s : σ) (r : Request) :
    Handled σ :=
  let noteUUID := r.queryNoteUUID
  if noteUUID = [] then
    ⟨s, .handled (apperror.HandleError unwrapsInner
      (some (apperror.BadRequestError "note_uuid query parameter is required"))), []⟩
  else
    match storage.Service.GetFilesByNoteUUID c s noteUUID with
    | .error err =>
      ⟨s, .handled (apperror.HandleError unwrapsInner (some err)), [.GetFilesByNoteUUID noteUUID]⟩
    | .ok file => ⟨s, .json file, [.GetFilesByNoteUUID noteUUID]⟩

/-- The method `handler.createFile`. The note comes from `r.Form.Get("note_uuid")` and
is passed on without a test. -/
def createFile (unwrapsInner : Bool) (c : sdk.Client σ) (s : σ) (r : Request) : Handled σ :=
  match r.parseMultipartForm with
  | some err => ⟨s, .handled (apperror.HandleError unwrapsInner (some err)), []⟩
  | none =>
    match r.formFiles with
    | none =>
      ⟨s, .handled (apperror.HandleError unwrapsInner
        (some (apperror.BadRequestError "file required"))), []⟩
    | some [] =>
      ⟨s, .handled (apperror.HandleError unwrapsInner
        (some (apperror.BadRequestError "file required"))), []⟩
    | some (fileInfo :: _) =>
      match fileInfo.Open with
      | .error err => ⟨s, .handled (apperror.HandleError unwrapsInner (some err)), []⟩
      | .ok fileReader =>
        let dto : storage.CreateFileDTO :=
          { Name := fileInfo.Filename, Size := fileInfo.Size, Reader := fileReader }
        match storage.Service.Create c s r.formNoteUUID dto with
        | (s1, some err) =>
          ⟨s1, .handled (apperror.HandleError unwrapsInner (some err)),
            [.Create r.formNoteUUID dto]⟩
        | (s1, none) => ⟨s1, .status 201, [.Create r.formNoteUUID dto]⟩

/-- The method `handler.deleteFile`. -/
def deleteFile (unwrapsInner : Bool) (c : sdk.Client σ) (s : σ) (r : Request) : Handled σ :=
  let fileID := r.urlParamID
  let noteUUID := r.queryNoteUUID
  if noteUUID = [] then
    ⟨s, .handled (apperror.HandleError unwrapsInner
      (some (apperror.BadRequestError "note_uuid query parameter is required"))), []⟩
  else
    match storage.Service.Delete c s noteUUID fileID with
    | (s1, some err) =>
      ⟨s1, .handled (apperror.HandleError unwrapsInner (some err)), [.Delete noteUUID fileID]⟩
    | (s1, none) => ⟨s1, .status 204, [.Delete noteUUID fileID]⟩

end rest

/-! ## More tokens and stores for concrete cases -/

namespace fixture

/-- A decoder for one token string: an HS256 token with valid registered claims and the
claim `id` equal to u1, whose signature the HMAC method accepts for whatever key it is
handed. Every other string is malformed. -/
def libHmac (unwrapsInner : Bool) : jwt.Lib where
  ParseUnverified := fun t =>
    if t = ascii "hmac.u1" then
      .ok { Method := .hmac, ID := ascii "u1", claimsErrors := 0, claimsInner := .sentinel ""
            signatureDecodes := true, signedBy := none, Valid := false }
    else .error (.validationText 1 "token contains an invalid number of segments")
  verifyOther := fun _ _ => none
  unwrapsInner := unwrapsInner

/-- A store that refuses every container name: the existence check and the creation
fail. -/
def refusing : scripted.Script where
  listing := []
  opening := fun _ => .error (.sentinel "Bucket name cannot be empty")
  bucketExists := (false, some (.sentinel "Bucket name cannot be empty"))
  makeBucket := some (.sentinel "Bucket name cannot be empty")
  putObject := none

end fixture

namespace fixture

/-- A request without note identifier: no query parameter and no form value note_uuid,
the URL parameter id1, and a multipart form with the file a.txt of three bytes. -/
def noNote : rest.Request where
  queryNoteUUID := []
  urlParamID := ascii "id1"
  parseMultipartForm := none
  formFiles := some [⟨ascii "a.txt", 3, .ok ⟨[1, 2, 3], none⟩⟩]
  formNoteUUID := []

end fixture

/-! # Properties -/

/-! ## Known answers for the library models -/

namespace sha256

set_option maxRecDepth 100000 in
/-- The FIPS 180-4 example: the digest of the three bytes of abc. -/
theorem Sum256_abc :
    Sum256 (ascii "abc") =
      [0xba, 0x78, 0x16, 0xbf, 0x8f, 0x01, 0xcf, 0xea, 0x41, 0x41, 0x40, 0xde, 0x5d, 0xae, 0x22, 0x23,
       0xb0, 0x03, 0x61, 0xa3, 0x96, 0x17, 0x7a, 0x9c, 0xb4, 0x10, 0xff, 0x61, 0xf2, 0x00, 0x15, 0xad] := by
  decide

theorem beBytes_length (n x : Nat) : (beBytes n x).length = n := by
  induction n with
  | zero => rfl
  | succ k ih => simp [beBytes, ih]

theorem beBytes_lt (n x : Nat) : ∀ y ∈ beBytes n x, y < 256 := by
  induction n with
  | zero => simp [beBytes]
  | succ k ih =>
    intro y hy
    simp only [beBytes, List.mem_cons] at hy
    rcases hy with rfl | hy
    · exact Nat.mod_lt _ (by decide)
    · exact ih y hy

/-- A digest has 32 bytes. -/
theorem Sum256_length (data : Bytes) : (Sum256 data).length = 32 := by
  simp [Sum256, digest, beBytes_length]

/-- Every element of a digest is a byte. -/
theorem Sum256_lt (data : Bytes) : ∀ y ∈ Sum256 data, y < 256 := by
  intro y hy
  simp only [Sum256, digest, List.mem_append] at hy
  rcases hy with ((((((hy | hy) | hy) | hy) | hy) | hy) | hy) | hy <;> exact beBytes_lt _ _ y hy

end sha256

namespace base64

/-- The test vectors of RFC 4648, section 10, and one that needs the URL alphabet. -/
theorem EncodeToString_vectors :
    EncodeToString (ascii "") = ascii "" ∧
    EncodeToString (ascii "f") = ascii "Zg==" ∧
    EncodeToString (ascii "fo") = ascii "Zm8=" ∧
    EncodeToString (ascii "foo") = ascii "Zm9v" ∧
    EncodeToString (ascii "foob") = ascii "Zm9vYg==" ∧
    EncodeToString (ascii "fooba") = ascii "Zm9vYmE=" ∧
    EncodeToString (ascii "foobar") = ascii "Zm9vYmFy" ∧
    EncodeToString [0xfb, 0xff, 0xfe] = ascii "-__-" := by
  decide

theorem indexOf_enc : ∀ i, i < 64 → encodeURL.indexOf (enc i) = i := by decide

theorem enc_inj {i j : Nat} (hi : i < 64) (hj : j < 64) (h : enc i = enc j) : i = j := by
  have h1 := indexOf_enc i hi
  have h2 := indexOf_enc j hj
  rw [h] at h1
  exact h1.symm.trans h2

theorem and_63 (x : Nat) : x &&& 0x3F = x % 64 :=
  Nat.and_pow_two_sub_one_eq_mod x 6

theorem or_shift (a b c : Nat) (hb : b < 256) (hc : c < 256) :
    a <<< 16 ||| b <<< 8 ||| c = a * 65536 + b * 256 + c := by
  have h1 : a <<< 16 ||| b <<< 8 = 2 ^ 8 * (a * 256 + b) := by
    have := Nat.mul_add_lt_is_or (show b * 256 < 2 ^ 16 by omega) a
    rw [Nat.shiftLeft_eq, Nat.shiftLeft_eq, Nat.mul_comm a (2 ^ 16), ← this]
    omega
  rw [h1, ← Nat.mul_add_lt_is_or (show c < 2 ^ 8 by omega)]
  omega

theorem or_shift2 (a b : Nat) (hb : b < 256) :
    a <<< 16 ||| b <<< 8 = a * 65536 + b * 256 := by
  have := Nat.mul_add_lt_is_or (show b * 256 < 2 ^ 16 by omega) a
  rw [Nat.shiftLeft_eq, Nat.shiftLeft_eq, Nat.mul_comm a (2 ^ 16), ← this]

theorem group_inj {a b c x y z : Nat}
    (h0 : enc (((a % 256) <<< 16 ||| (b % 256) <<< 8 ||| (c % 256)) >>> 18 &&& 0x3F) =
          enc (((x % 256) <<< 16 ||| (y % 256) <<< 8 ||| (z % 256)) >>> 18 &&& 0x3F))
    (h1 : enc (((a % 256) <<< 16 ||| (b % 256) <<< 8 ||| (c % 256)) >>> 12 &&& 0x3F) =
          enc (((x % 256) <<< 16 ||| (y % 256) <<< 8 ||| (z % 256)) >>> 12 &&& 0x3F))
    (h2 : enc (((a % 256) <<< 16 ||| (b % 256) <<< 8 ||| (c % 256)) >>> 6 &&& 0x3F) =
          enc (((x % 256) <<< 16 ||| (y % 256) <<< 8 ||| (z % 256)) >>> 6 &&& 0x3F))
    (h3 : enc (((a % 256) <<< 16 ||| (b % 256) <<< 8 ||| (c % 256)) &&& 0x3F) =
          enc (((x % 256) <<< 16 ||| (y % 256) <<< 8 ||| (z % 256)) &&& 0x3F)) :
    a % 256 = x % 256 ∧ b % 256 = y % 256 ∧ c % 256 = z % 256 := by
  have ha := Nat.mod_lt a (show 256 > 0 by decide)
  have hb := Nat.mod_lt b (show 256 > 0 by decide)
  have hc := Nat.mod_lt c (show 256 > 0 by decide)
  have hx := Nat.mod_lt x (show 256 > 0 by decide)
  have hy := Nat.mod_lt y (show 256 > 0 by decide)
  have hz := Nat.mod_lt z (show 256 > 0 by decide)
  rw [or_shift _ _ _ hb hc, or_shift _ _ _ hy hz] at h0 h1 h2 h3
  simp only [and_63, Nat.shiftRight_eq_div_pow] at h0 h1 h2 h3
  have e0 := enc_inj (Nat.mod_lt _ (by decide)) (Nat.mod_lt _ (by decide)) h0
  have e1 := enc_inj (Nat.mod_lt _ (by decide)) (Nat.mod_lt _ (by decide)) h1
  have e2 := enc_inj (Nat.mod_lt _ (by decide)) (Nat.mod_lt _ (by decide)) h2
  have e3 := enc_inj (Nat.mod_lt _ (by decide)) (Nat.mod_lt _ (by decide)) h3
  omega

theorem pair_inj {a b x y : Nat}
    (h0 : enc (((a % 256) <<< 16 ||| (b % 256) <<< 8) >>> 18 &&& 0x3F) =
          enc (((x % 256) <<< 16 ||| (y % 256) <<< 8) >>> 18 &&& 0x3F))
    (h1 : enc (((a % 256) <<< 16 ||| (b % 256) <<< 8) >>> 12 &&& 0x3F) =
          enc (((x % 256) <<< 16 ||| (y % 256) <<< 8) >>> 12 &&& 0x3F))
    (h2 : enc (((a % 256) <<< 16 ||| (b % 256) <<< 8) >>> 6 &&& 0x3F) =
          enc (((x % 256) <<< 16 ||| (y % 256) <<< 8) >>> 6 &&& 0x3F)) :
    a % 256 = x % 256 ∧ b % 256 = y % 256 := by
  have ha := Nat.mod_lt a (show 256 > 0 by decide)
  have hb := Nat.mod_lt b (show 256 > 0 by decide)
  have hx := Nat.mod_lt x (show 256 > 0 by decide)
  have hy := Nat.mod_lt y (show 256 > 0 by decide)
  rw [or_shift2 _ _ hb, or_shift2 _ _ hy] at h0 h1 h2
  simp only [and_63, Nat.shiftRight_eq_div_pow] at h0 h1 h2
  have e0 := enc_inj (Nat.mod_lt _ (by decide)) (Nat.mod_lt _ (by decide)) h0
  have e1 := enc_inj (Nat.mod_lt _ (by decide)) (Nat.mod_lt _ (by decide)) h1
  have e2 := enc_inj (Nat.mod_lt _ (by decide)) (Nat.mod_lt _ (by decide)) h2
  omega

theorem single_inj {a x : Nat}
    (h0 : enc (((a % 256) <<< 16) >>> 18 &&& 0x3F) = enc (((x % 256) <<< 16) >>> 18 &&& 0x3F))
    (h1 : enc (((a % 256) <<< 16) >>> 12 &&& 0x3F) = enc (((x % 256) <<< 16) >>> 12 &&& 0x3F)) :
    a % 256 = x % 256 := by
  have ha := Nat.mod_lt a (show 256 > 0 by decide)
  have hx := Nat.mod_lt x (show 256 > 0 by decide)
  simp only [and_63, Nat.shiftRight_eq_div_pow, Nat.shiftLeft_eq] at h0 h1
  have e0 := enc_inj (Nat.mod_lt _ (by decide)) (Nat.mod_lt _ (by decide)) h0
  have e1 := enc_inj (Nat.mod_lt _ (by decide)) (Nat.mod_lt _ (by decide)) h1
  omega

/-- On byte sequences of equal length the encoding is injective. -/
theorem EncodeToString_inj : ∀ (l m : Bytes), (∀ x ∈ l, x < 256) → (∀ x ∈ m, x < 256) →
    l.length = m.length → EncodeToString l = EncodeToString m → l = m
  | [], [], _, _, _, _ => rfl
  | [a], [x], hl, hm, _, h => by
    simp only [EncodeToString, List.cons.injEq, and_true] at h
    have := single_inj h.1 h.2
    have ha := hl a (by simp)
    have hx := hm x (by simp)
    simp only [List.cons.injEq, and_true]
    omega
  | [a, b], [x, y], hl, hm, _, h => by
    simp only [EncodeToString, List.cons.injEq, and_true] at h
    have := pair_inj h.1 h.2.1 h.2.2
    have ha := hl a (by simp)
    have hb := hl b (by simp)
    have hx := hm x (by simp)
    have hy := hm y (by simp)
    simp only [List.cons.injEq, and_true]
    omega
  | a :: b :: c :: l, x :: y :: z :: m, hl, hm, hlen, h => by
    simp only [EncodeToString, List.cons.injEq] at h
    have := group_inj h.1 h.2.1 h.2.2.1 h.2.2.2.1
    have ha := hl a (by simp)
    have hb := hl b (by simp)
    have hc := hl c (by simp)
    have hx := hm x (by simp)
    have hy := hm y (by simp)
    have hz := hm z (by simp)
    have ih := EncodeToString_inj l m (fun v hv => hl v (by simp [hv]))
      (fun v hv => hm v (by simp [hv])) (by simpa using hlen) h.2.2.2.2
    simp only [List.cons.injEq]
    refine ⟨by omega, by omega, by omega, ih⟩
  | [], _ :: _, _, _, hlen, _ => by simp at hlen
  | _ :: _, [], _, _, hlen, _ => by simp at hlen
  | [_], _ :: _ :: _, _, _, hlen, _ => by simp at hlen
  | _ :: _ :: _, [_], _, _, hlen, _ => by simp at hlen
  | [_, _], _ :: _ :: _ :: _, _, _, hlen, _ => by simp at hlen
  | _ :: _ :: _ :: _, [_, _], _, _, hlen, _ => by simp at hlen

end base64
namespace base64

/-- The encoding has four characters for every started group of three bytes. -/
theorem EncodeToString_length : ∀ l : Bytes, (EncodeToString l).length = (l.length + 2) / 3 * 4
  | [] => rfl
  | [_] => by simp [EncodeToString]
  | [_, _] => by simp [EncodeToString]
  | _ :: _ :: _ :: l => by
    simp only [EncodeToString, List.length_cons, EncodeToString_length l]
    omega

end base64

namespace storage

/-- The file `NewFile` returns for a reader that delivers `content` without error. -/
theorem NewFile_ok (name content : Bytes) (size : Int) :
    NewFile ⟨name, size, ⟨content, none⟩⟩ =
      .ok { ID := base64.EncodeToString (sha256.Sum256 (name ++ content))
            Name := name, Size := size, Bytes := content } := rfl

/-- C1: for every display name, declared size and byte sequence that the upload reader
delivers without error, `NewFile` returns a file whose identifier is the padded
URL-safe base64 encoding of the SHA-256 digest of the name bytes followed by the
content bytes; the identifier has 44 characters. -/
theorem C1_NewFile_ID (name content : Bytes) (size : Int) :
    ∃ f, NewFile ⟨name, size, ⟨content, none⟩⟩ = .ok f ∧
      f.ID = base64.EncodeToString (sha256.Sum256 (name ++ content)) ∧
      f.ID.length = 44 := by
  refine ⟨_, NewFile_ok name content size, rfl, ?_⟩
  show (base64.EncodeToString (sha256.Sum256 (name ++ content))).length = 44
  rw [base64.EncodeToString_length, sha256.Sum256_length]

set_option maxRecDepth 100000 in
/-- A known answer for `NewFile`: the name a.txt with the bytes 1, 2, 3. -/
theorem NewFile_known_answer :
    (NewFile ⟨ascii "a.txt", 3, ⟨[1, 2, 3], none⟩⟩).toOption.map File.ID =
      some (ascii "lItPVe58_nj6VXW8xGpthv7IMa3c0Xo0791w4OfWSgY=") := by
  decide

/-- C2: the byte strings hashed for two different names with one content differ, and so
do those for one name with two different contents; whenever SHA-256 does not collide
on the two hashed byte strings, the identifiers `NewFile` returns differ. -/
theorem C2_NewFile_ID_distinct (n1 n2 n c c1 c2 : Bytes) (s1 s2 : Int) :
    (n1 ≠ n2 → n1 ++ c ≠ n2 ++ c) ∧
    (c1 ≠ c2 → n ++ c1 ≠ n ++ c2) ∧
    (n1 ≠ n2 → sha256.Sum256 (n1 ++ c) ≠ sha256.Sum256 (n2 ++ c) →
      ∃ f1 f2, NewFile ⟨n1, s1, ⟨c, none⟩⟩ = .ok f1 ∧ NewFile ⟨n2, s2, ⟨c, none⟩⟩ = .ok f2 ∧
        f1.ID ≠ f2.ID) ∧
    (c1 ≠ c2 → sha256.Sum256 (n ++ c1) ≠ sha256.Sum256 (n ++ c2) →
      ∃ f1 f2, NewFile ⟨n, s1, ⟨c1, none⟩⟩ = .ok f1 ∧ NewFile ⟨n, s2, ⟨c2, none⟩⟩ = .ok f2 ∧
        f1.ID ≠ f2.ID) := by
  have inj : ∀ x y : Bytes, sha256.Sum256 x ≠ sha256.Sum256 y →
      base64.EncodeToString (sha256.Sum256 x) ≠ base64.EncodeToString (sha256.Sum256 y) := by
    intro x y hne heq
    exact hne (base64.EncodeToString_inj _ _ (sha256.Sum256_lt x) (sha256.Sum256_lt y)
      (by rw [sha256.Sum256_length, sha256.Sum256_length]) heq)
  refine ⟨fun h e => h (List.append_cancel_right e), fun h e => h (List.append_cancel_left e),
    fun _ hh => ⟨_, _, NewFile_ok n1 c s1, NewFile_ok n2 c s2, inj _ _ hh⟩,
    fun _ hh => ⟨_, _, NewFile_ok n c1 s1, NewFile_ok n c2 s2, inj _ _ hh⟩⟩

set_option maxRecDepth 100000 in
/-- C2 at the names a and b with the content x, and at the name a with the contents x
and y. -/
theorem C2_NewFile_ID_distinct_witness :
    (ascii "a" ++ ascii "x" ≠ ascii "b" ++ ascii "x") ∧
    (ascii "a" ++ ascii "x" ≠ ascii "a" ++ ascii "y") ∧
    (∃ f1 f2, NewFile ⟨ascii "a", 1, ⟨ascii "x", none⟩⟩ = .ok f1 ∧
      NewFile ⟨ascii "b", 1, ⟨ascii "x", none⟩⟩ = .ok f2 ∧ f1.ID ≠ f2.ID) ∧
    (∃ f1 f2, NewFile ⟨ascii "a", 1, ⟨ascii "x", none⟩⟩ = .ok f1 ∧
      NewFile ⟨ascii "a", 1, ⟨ascii "y", none⟩⟩ = .ok f2 ∧ f1.ID ≠ f2.ID) :=
  have h := C2_NewFile_ID_distinct (ascii "a") (ascii "b") (ascii "a") (ascii "x")
    (ascii "x") (ascii "y") 1 1
  ⟨h.1 (by decide), h.2.1 (by decide), h.2.2.1 (by decide) (by decide),
    h.2.2.2 (by decide) (by decide)⟩

end storage
namespace memstore

theorem lookup_setBucket (s : Store) (bucket : Bytes) (objs : List (Bytes × Stored)) :
    (setBucket s bucket objs).lookup bucket = some objs := by
  simp [setBucket, List.lookup]

theorem lookup_putKey (objs : List (Bytes × Stored)) (key : Bytes) (v : Stored) :
    (putKey objs key v).lookup key = some v := by
  simp [putKey, List.lookup]

/-- The map store keeps what is written. -/
theorem client_keepsWrites : KeepsWrites client := by
  intro s s1 bucket key content size userMeta h
  simp only [client] at h
  cases hb : s.lookup bucket with
  | none => simp [hb] at h
  | some objs =>
    simp only [hb] at h
    split at h
    · simp at h
    · simp only [Prod.mk.injEq, and_true] at h
      subst h
      refine ⟨opened key ⟨content, userMeta⟩, ?_, rfl, ?_⟩
      · simp [client, lookup_setBucket, lookup_putKey]
      · intro n
        simp only [opened, true_and]
        split <;> simp

end memstore

namespace storage

variable {σ : Type}

/-- A successful `Client.UploadFile` ends with a successful `PutObject` of the same
key, reader, size and name. -/
theorem UploadFile_ok_put (c : sdk.Client σ) (s s1 : σ) (fileID fileName bucketName : Bytes)
    (fileSize : Int) (reader : Reader)
    (h : minio.Client.UploadFile c s fileID fileName bucketName fileSize reader = (s1, none)) :
    ∃ s0, c.PutObject s0 bucketName fileID reader fileSize [(ascii "Name", fileName)] =
      (s1, none) := by
  have put : ∀ s0, minio.Client.UploadFile.put c s0 fileID fileName bucketName fileSize reader =
      (s1, none) →
      c.PutObject s0 bucketName fileID reader fileSize [(ascii "Name", fileName)] = (s1, none) := by
    intro s0 h0
    unfold minio.Client.UploadFile.put at h0
    split at h0
    · simp at h0
    · rename_i s2 heq
      simp only [Prod.mk.injEq, and_true] at h0
      rw [heq, h0]
  unfold minio.Client.UploadFile at h
  simp only at h
  split at h
  · split at h
    · simp at h
    · exact ⟨_, put _ h⟩
  · exact ⟨_, put _ h⟩

/-- Reading an object that delivers `content` into a buffer of its length. -/
theorem readInto_full (obj : sdk.Object) (content : Bytes)
    (h : (obj.Read content.length).1 = content.take content.length) :
    (obj.readInto content.length).1 = content := by
  simp [sdk.Object.readInto, h]

/-- The object `minioStorage.GetFile` receives has a cancelled context: whenever the
object opens, the method returns the `context.Canceled` of its `Stat`, wrapped. -/
theorem GetFile_opened (c : sdk.Client σ) (s : σ) (bucketName fileID : Bytes)
    (obj : sdk.Object) (hopen : c.GetObject s bucketName fileID = .ok obj) :
    minioStorage.GetFile c s bucketName fileID =
      .error (.wrap "failed to get file. err: %w" sdk.Canceled) := by
  simp [minioStorage.GetFile, minio.Client.GetFile, hopen, minioStorage.GetFile.fromObject,
    sdk.Object.afterCancel]

/-- The methods `minioStorage.GetFile` and `Service.GetFile` never return a file. -/
theorem GetFile_error (c : sdk.Client σ) (s : σ) (bucketName fileID : Bytes) :
    ∃ err, minioStorage.GetFile c s bucketName fileID = .error err ∧
      Service.GetFile c s bucketName fileID = .error err := by
  have hsv : ∀ err, minioStorage.GetFile c s bucketName fileID = .error err →
      Service.GetFile c s bucketName fileID = .error err := by
    intro err h
    simp [Service.GetFile, h]
  cases hopen : c.GetObject s bucketName fileID with
  | error e =>
    have h : minioStorage.GetFile c s bucketName fileID =
        .error (.wrap "failed to get file. err: %w"
          (.wrap "failed to get file with id: %s from minio bucket %s. err: %w" e)) := by
      simp [minioStorage.GetFile, minio.Client.GetFile, hopen]
    exact ⟨_, h, hsv _ h⟩
  | ok obj => exact ⟨_, GetFile_opened c s bucketName fileID obj hopen,
      hsv _ (GetFile_opened c s bucketName fileID obj hopen)⟩

/-- Over a store that keeps what is written, after a `Service.Create` that succeeded,
`Service.GetFile` for the derived identifier returns `context.Canceled`, wrapped, and
no file. -/
theorem Create_then_GetFile (c : sdk.Client σ) (hc : KeepsWrites c) (s s1 : σ)
    (note name B : Bytes)
    (hcreate : Service.Create c s note ⟨name, B.length, ⟨B, none⟩⟩ = (s1, none)) :
    Service.GetFile c s1 note (base64.EncodeToString (sha256.Sum256 (name ++ B))) =
      .error (.wrap "failed to get file. err: %w" sdk.Canceled) := by
  simp only [Service.Create, NewFile_ok, minioStorage.CreateFile, NewBuffer] at hcreate
  have hup : minio.Client.UploadFile c s (base64.EncodeToString (sha256.Sum256 (name ++ B)))
      name note (B.length : Int) ⟨B, none⟩ = (s1, none) := by
    revert hcreate
    generalize minio.Client.UploadFile c s _ name note (B.length : Int) ⟨B, none⟩ = r
    rcases r with ⟨s2, _ | e⟩ <;> simp
  obtain ⟨s0, hput⟩ := UploadFile_ok_put c s s1 _ _ _ _ _ hup
  obtain ⟨obj, hget, _, _⟩ := hc s0 s1 note _ B _ _ hput
  simp [Service.GetFile, GetFile_opened c s1 note _ obj hget]

set_option maxRecDepth 100000 in
/-- C3 fails on the code: on the map store, from the empty store, `Service.Create` of
the name a.txt with the bytes 1, 2, 3 for the note note-0001 succeeds and stores the
object under the derived identifier; `Service.GetFile` for that note and identifier
then returns the wrapped `context.Canceled` and no file, while the listing of the note
returns the file with its bytes and its name. -/
theorem C3_roundtrip_get_fails :
    Service.Create memstore.client [] (ascii "note-0001")
        ⟨ascii "a.txt", 3, ⟨[1, 2, 3], none⟩⟩ =
      ([(ascii "note-0001", [(ascii "lItPVe58_nj6VXW8xGpthv7IMa3c0Xo0791w4OfWSgY=",
          ⟨[1, 2, 3], [(ascii "Name", ascii "a.txt")]⟩)])], none) ∧
    Service.GetFile memstore.client
        [(ascii "note-0001", [(ascii "lItPVe58_nj6VXW8xGpthv7IMa3c0Xo0791w4OfWSgY=",
          ⟨[1, 2, 3], [(ascii "Name", ascii "a.txt")]⟩)])]
        (ascii "note-0001") (ascii "lItPVe58_nj6VXW8xGpthv7IMa3c0Xo0791w4OfWSgY=") =
      .error (.wrap "failed to get file. err: %w" sdk.Canceled) ∧
    Service.GetFilesByNoteUUID memstore.client
        [(ascii "note-0001", [(ascii "lItPVe58_nj6VXW8xGpthv7IMa3c0Xo0791w4OfWSgY=",
          ⟨[1, 2, 3], [(ascii "Name", ascii "a.txt")]⟩)])]
        (ascii "note-0001") =
      .ok [{ ID := ascii "lItPVe58_nj6VXW8xGpthv7IMa3c0Xo0791w4OfWSgY=", Name := ascii "a.txt"
             Size := 3, Bytes := [1, 2, 3] }] :=
  ⟨by decide, rfl, rfl⟩

end storage
namespace storage

variable {σ : Type}

/-- C4: when the container of a note yields no object, `minioStorage.GetFilesByNoteUUID`
and `Service.GetFilesByNoteUUID` return the error `ErrNotFound` and no file list; in
particular they do not return an empty list with a nil error. -/
theorem C4_empty_note_not_found (c : sdk.Client σ) (s : σ) (noteUUID : Bytes)
    (hempty : (minio.Client.GetBucketFiles c s noteUUID).1 = []) :
    minioStorage.GetFilesByNoteUUID c s noteUUID = .error apperror.ErrNotFound ∧
    Service.GetFilesByNoteUUID c s noteUUID = .error apperror.ErrNotFound ∧
    Service.GetFilesByNoteUUID c s noteUUID ≠ .ok [] := by
  have h1 : minioStorage.GetFilesByNoteUUID c s noteUUID = .error apperror.ErrNotFound := by
    have h2 : minio.Client.GetBucketFiles c s noteUUID = ([], none) := by
      rw [← hempty]; rfl
    simp [minioStorage.GetFilesByNoteUUID, h2]
  refine ⟨h1, ?_, ?_⟩ <;> simp [Service.GetFilesByNoteUUID, h1]

/-- C4 on the map store: a note whose container exists and holds nothing. -/
theorem C4_empty_note_not_found_witness :
    (minio.Client.GetBucketFiles memstore.client [(ascii "empty-note", [])]
      (ascii "empty-note")).1 = [] ∧
    minioStorage.GetFilesByNoteUUID memstore.client [(ascii "empty-note", [])]
      (ascii "empty-note") = .error apperror.ErrNotFound ∧
    Service.GetFilesByNoteUUID memstore.client [(ascii "empty-note", [])]
      (ascii "empty-note") = .error apperror.ErrNotFound ∧
    Service.GetFilesByNoteUUID memstore.client [(ascii "empty-note", [])]
      (ascii "empty-note") ≠ .ok [] :=
  ⟨rfl, C4_empty_note_not_found memstore.client [(ascii "empty-note", [])]
    (ascii "empty-note") rfl⟩

/-- One step of the listing loop appends the file of a healthy object and nothing for
any other object. -/
theorem step_eq (files : List File) (obj : sdk.Object) :
    minioStorage.GetFilesByNoteUUID.step files obj = files ++ (healthyFile obj).toList := by
  unfold minioStorage.GetFilesByNoteUUID.step healthyFile
  cases hs : obj.Stat with
  | error e => simp
  | ok stat =>
    simp only
    rcases h : (obj.readInto stat.Size).2 with _ | e
    · simp
    · by_cases he : e = Error.EOF
      · simp [he]
      · simp [he]

/-- The listing loop collects the files of the healthy objects, in order. -/
theorem foldl_step_eq (objects : List sdk.Object) (files : List File) :
    objects.foldl minioStorage.GetFilesByNoteUUID.step files =
      files ++ objects.filterMap healthyFile := by
  induction objects generalizing files with
  | nil => simp
  | cons o os ih =>
    rw [List.foldl_cons, ih, step_eq]
    cases h : healthyFile o <;> simp [List.filterMap_cons, h]

/-- The result of `minioStorage.GetFilesByNoteUUID` in terms of the opened objects. -/
theorem GetFilesByNoteUUID_eq (c : sdk.Client σ) (s : σ) (noteUUID : Bytes) :
    minioStorage.GetFilesByNoteUUID c s noteUUID =
      if (minio.Client.GetBucketFiles c s noteUUID).1.length = 0 then
        .error apperror.ErrNotFound
      else .ok ((minio.Client.GetBucketFiles c s noteUUID).1.filterMap healthyFile) := by
  have h2 : minio.Client.GetBucketFiles c s noteUUID =
      ((minio.Client.GetBucketFiles c s noteUUID).1, none) := rfl
  unfold minioStorage.GetFilesByNoteUUID
  rw [h2]
  simp only [foldl_step_eq, List.nil_append]

/-- C5: for every non-empty sequence of objects opened for a note,
`minioStorage.GetFilesByNoteUUID` returns a nil error and exactly the files of the
healthy objects (stat succeeds, read ends with nil or end-of-stream), in listing order;
an object that has no file is dropped without any effect on the files of the others. -/
theorem C5_partial_listing (c : sdk.Client σ) (s : σ) (noteUUID : Bytes)
    (hne : (minio.Client.GetBucketFiles c s noteUUID).1 ≠ []) :
    minioStorage.GetFilesByNoteUUID c s noteUUID =
      .ok ((minio.Client.GetBucketFiles c s noteUUID).1.filterMap healthyFile) ∧
    ∀ before bad after, (minio.Client.GetBucketFiles c s noteUUID).1 = before ++ bad :: after →
      healthyFile bad = none →
      minioStorage.GetFilesByNoteUUID c s noteUUID =
        .ok (before.filterMap healthyFile ++ after.filterMap healthyFile) := by
  have h := GetFilesByNoteUUID_eq c s noteUUID
  rw [if_neg (by simpa using hne)] at h
  refine ⟨h, ?_⟩
  intro before bad after hsplit hbad
  rw [h, hsplit, List.filterMap_append, List.filterMap_cons, hbad]

/-- C5 on a scripted store: two objects are listed and opened, the first is healthy and
the read of the second fails; the result is the one healthy file and a nil error. -/
theorem C5_partial_listing_witness :
    minioStorage.GetFilesByNoteUUID
      (scripted.client
        { listing := [⟨none, ascii "k1"⟩, ⟨none, ascii "k2"⟩]
          opening := fun key =>
            if key = ascii "k1" then .ok (scripted.healthy (ascii "k1") (ascii "a.txt") [1, 2, 3])
            else .ok (scripted.unreadable (ascii "k2") 5)
          bucketExists := (true, none), makeBucket := none, putObject := none })
      [] (ascii "n1") =
      .ok [{ ID := ascii "k1", Name := ascii "a.txt", Size := 3, Bytes := [1, 2, 3] }] :=
  (C5_partial_listing _ [] (ascii "n1")
    (fun h => absurd (congrArg List.length h) (by decide))).1.trans rfl

end storage
namespace storage

variable {σ : Type}

/-- The object `Client.GetBucketFiles` keeps for a listed element: none for an element
that carries a listing error or whose `GetObject` fails. -/
theorem GetBucketFiles_step_eq (c : sdk.Client σ) (s : σ) (bucketName : Bytes)
    (files : List sdk.Object) (lobj : sdk.ListEntry) :
    minio.Client.GetBucketFiles.step c s bucketName files lobj =
      files ++ (match lobj.Err with
        | some _ => []
        | none => match c.GetObject s bucketName lobj.Key with
          | .error _ => []
          | .ok object => [object]) := by
  unfold minio.Client.GetBucketFiles.step
  cases lobj.Err with
  | some e => simp
  | none => cases c.GetObject s bucketName lobj.Key <;> simp

/-- The loop of `Client.GetBucketFiles` never drops what it has collected. -/
theorem GetBucketFiles_foldl (c : sdk.Client σ) (s : σ) (bucketName : Bytes)
    (entries : List sdk.ListEntry) (files : List sdk.Object) :
    ∃ more, entries.foldl (minio.Client.GetBucketFiles.step c s bucketName) files = files ++ more ∧
      (more = [] ↔ ∀ e ∈ entries,
        e.Err ≠ none ∨ ∃ err, c.GetObject s bucketName e.Key = .error err) := by
  induction entries generalizing files with
  | nil => exact ⟨[], by simp, by simp⟩
  | cons e es ih =>
    rw [List.foldl_cons, GetBucketFiles_step_eq]
    generalize hk : (match e.Err with
        | some _ => []
        | none => match c.GetObject s bucketName e.Key with
          | .error _ => []
          | .ok object => [object]) = kept
    obtain ⟨more, hmore, hiff⟩ := ih (files ++ kept)
    refine ⟨kept ++ more, by rw [hmore, List.append_assoc], ?_⟩
    rw [List.append_eq_nil, hiff]
    simp only [List.mem_cons, forall_eq_or_imp]
    refine and_congr_left (fun _ => ?_)
    subst hk
    cases e.Err with
    | some x => simp
    | none => cases c.GetObject s bucketName e.Key <;> simp

/-- No object is opened exactly when every listed element carries a listing error or
fails to open. -/
theorem GetBucketFiles_eq_nil (c : sdk.Client σ) (s : σ) (bucketName : Bytes) :
    (minio.Client.GetBucketFiles c s bucketName).1 = [] ↔
      ∀ e ∈ c.ListObjects s bucketName,
        e.Err ≠ none ∨ ∃ err, c.GetObject s bucketName e.Key = .error err := by
  obtain ⟨more, hmore, hiff⟩ := GetBucketFiles_foldl c s bucketName (c.ListObjects s bucketName) []
  simp only [minio.Client.GetBucketFiles, hmore, List.nil_append]
  exact hiff

/-- C6, as the claim states it, fails: the container of the note lists one object, the
object fails to open, and the listing returns `ErrNotFound` instead of an empty list
with a nil error. -/
theorem C6_counterexample :
    (∃ e ∈ (scripted.client
        { listing := [⟨none, ascii "k1"⟩]
          opening := fun _ => .error (.sentinel "open failed")
          bucketExists := (true, none), makeBucket := none, putObject := none }).ListObjects
        [] (ascii "n1"), e.Err = none) ∧
    minioStorage.GetFilesByNoteUUID
      (scripted.client
        { listing := [⟨none, ascii "k1"⟩]
          opening := fun _ => .error (.sentinel "open failed")
          bucketExists := (true, none), makeBucket := none, putObject := none })
      [] (ascii "n1") = .error apperror.ErrNotFound ∧
    minioStorage.GetFilesByNoteUUID
      (scripted.client
        { listing := [⟨none, ascii "k1"⟩]
          opening := fun _ => .error (.sentinel "open failed")
          bucketExists := (true, none), makeBucket := none, putObject := none })
      [] (ascii "n1") ≠ .ok [] :=
  ⟨⟨⟨none, ascii "k1"⟩, by simp [scripted.client], rfl⟩, rfl, fun h => by cases h⟩

/-- C6 amended: whenever `Client.GetBucketFiles` opens at least one object of the
container, the listing returns a nil error and the files of the healthy objects,
however many opened objects fail at stat or read, and the empty list when all of them
fail; it returns `ErrNotFound` exactly when no object was opened, that is when every
listed element carries a listing error or fails to open, as when nothing is listed. -/
theorem C6_listing_errors_amended (c : sdk.Client σ) (s : σ) (noteUUID : Bytes) :
    ((minio.Client.GetBucketFiles c s noteUUID).1 ≠ [] →
      minioStorage.GetFilesByNoteUUID c s noteUUID =
        .ok ((minio.Client.GetBucketFiles c s noteUUID).1.filterMap healthyFile) ∧
      ((∀ o ∈ (minio.Client.GetBucketFiles c s noteUUID).1, healthyFile o = none) →
        minioStorage.GetFilesByNoteUUID c s noteUUID = .ok [])) ∧
    (minioStorage.GetFilesByNoteUUID c s noteUUID = .error apperror.ErrNotFound ↔
      ∀ e ∈ c.ListObjects s noteUUID,
        e.Err ≠ none ∨ ∃ err, c.GetObject s noteUUID e.Key = .error err) ∧
    (c.ListObjects s noteUUID = [] →
      minioStorage.GetFilesByNoteUUID c s noteUUID = .error apperror.ErrNotFound) := by
  have h := GetFilesByNoteUUID_eq c s noteUUID
  have hiff : minioStorage.GetFilesByNoteUUID c s noteUUID = .error apperror.ErrNotFound ↔
      ∀ e ∈ c.ListObjects s noteUUID,
        e.Err ≠ none ∨ ∃ err, c.GetObject s noteUUID e.Key = .error err := by
    rw [← GetBucketFiles_eq_nil, h]
    by_cases hz : (minio.Client.GetBucketFiles c s noteUUID).1 = []
    · simp [hz]
    · rw [if_neg (by simpa using hz)]
      simp [hz]
  refine ⟨fun hne => ?_, hiff, fun hl => hiff.2 (by simp [hl])⟩
  rw [if_neg (by simpa using hne)] at h
  refine ⟨h, fun hall => ?_⟩
  rw [h]
  congr 1
  exact List.filterMap_eq_nil_iff.2 hall

/-- C6 amended on a scripted store: two objects are opened, the stat of one and the
read of the other fail; the result is the empty list with a nil error. -/
theorem C6_listing_errors_amended_witness :
    minioStorage.GetFilesByNoteUUID
      (scripted.client
        { listing := [⟨none, ascii "k1"⟩, ⟨none, ascii "k2"⟩]
          opening := fun key =>
            if key = ascii "k1" then .ok scripted.unstatable
            else .ok (scripted.unreadable (ascii "k2") 5)
          bucketExists := (true, none), makeBucket := none, putObject := none })
      [] (ascii "n1") = .ok [] :=
  ((C6_listing_errors_amended _ [] (ascii "n1")).1
    (fun h => absurd (congrArg List.length h) (by decide))).1.trans rfl

end storage
namespace minio

variable {σ : Type}

/-- The tail of `Client.UploadFile` returns the state after `PutObject` and the error
of `PutObject`, wrapped when there is one. -/
theorem UploadFile_put_eq (c : sdk.Client σ) (s : σ) (fileID fileName bucketName : Bytes)
    (fileSize : Int) (reader : Reader) :
    Client.UploadFile.put c s fileID fileName bucketName fileSize reader =
      ((c.PutObject s bucketName fileID reader fileSize [(ascii "Name", fileName)]).1,
       (c.PutObject s bucketName fileID reader fileSize [(ascii "Name", fileName)]).2.map
         (Error.wrap "failed to upload file. err: %w")) := by
  unfold Client.UploadFile.put
  rcases c.PutObject s bucketName fileID reader fileSize [(ascii "Name", fileName)] with
    ⟨s2, _ | e⟩ <;> rfl

/-- C7, as the claim states it, fails: the existence check reports the container as
absent, the creation step answers that the container already exists, the write would
succeed, and `Client.UploadFile` returns the creation error without any write. -/
theorem C7_counterexample :
    Client.UploadFile
      (scripted.client
        { listing := [], opening := fun _ => .error (.sentinel "open failed")
          bucketExists := (false, none)
          makeBucket := some memstore.ErrBucketAlreadyOwnedByYou
          putObject := none })
      [] (ascii "id1") (ascii "a.txt") (ascii "n1") 3 ⟨[1, 2, 3], none⟩ =
      ([], some (.wrap "failed to create new bucket. err: %w"
        memstore.ErrBucketAlreadyOwnedByYou)) ∧
    Client.UploadFile.put
      (scripted.client
        { listing := [], opening := fun _ => .error (.sentinel "open failed")
          bucketExists := (false, none)
          makeBucket := some memstore.ErrBucketAlreadyOwnedByYou
          putObject := none })
      [] (ascii "id1") (ascii "a.txt") (ascii "n1") 3 ⟨[1, 2, 3], none⟩ =
      ([(ascii "n1", ascii "id1", [1, 2, 3])], none) := by
  decide

/-- C7 amended: when the existence check reports the container as absent or fails,
`Client.UploadFile` proceeds to write the object and returns the outcome of the write
exactly when the creation step returns no error; when the creation step returns any
error, the answer that the container already exists included, the upload returns that
error wrapped and the state the creation step left, without any write. -/
theorem C7_upload_creation_amended (c : sdk.Client σ) (s : σ)
    (fileID fileName bucketName : Bytes) (fileSize : Int) (reader : Reader)
    (habsent : (c.BucketExists s bucketName).2 ≠ none ∨ (c.BucketExists s bucketName).1 = false) :
    (∀ s1 err, c.MakeBucket s bucketName = (s1, some err) →
      Client.UploadFile c s fileID fileName bucketName fileSize reader =
        (s1, some (.wrap "failed to create new bucket. err: %w" err))) ∧
    (∀ s1, c.MakeBucket s bucketName = (s1, none) →
      Client.UploadFile c s fileID fileName bucketName fileSize reader =
        ((c.PutObject s1 bucketName fileID reader fileSize [(ascii "Name", fileName)]).1,
         (c.PutObject s1 bucketName fileID reader fileSize [(ascii "Name", fileName)]).2.map
           (Error.wrap "failed to upload file. err: %w"))) := by
  constructor
  · intro s1 err hmk
    unfold Client.UploadFile
    simp only [if_pos habsent, hmk]
  · intro s1 hmk
    unfold Client.UploadFile
    simp only [if_pos habsent, hmk, UploadFile_put_eq]

/-- C7 amended on a scripted store: the container is absent, its creation succeeds and
the write is recorded; with a creation that fails nothing is written. -/
theorem C7_upload_creation_amended_witness :
    Client.UploadFile
      (scripted.client
        { listing := [], opening := fun _ => .error (.sentinel "open failed")
          bucketExists := (false, none), makeBucket := none, putObject := none })
      [] (ascii "id1") (ascii "a.txt") (ascii "n1") 3 ⟨[1, 2, 3], none⟩ =
      ([(ascii "n1", ascii "id1", [1, 2, 3])], none) ∧
    Client.UploadFile
      (scripted.client
        { listing := [], opening := fun _ => .error (.sentinel "open failed")
          bucketExists := (true, some (.sentinel "timeout"))
          makeBucket := some (.sentinel "access denied"), putObject := none })
      [] (ascii "id1") (ascii "a.txt") (ascii "n1") 3 ⟨[1, 2, 3], none⟩ =
      ([], some (.wrap "failed to create new bucket. err: %w" (.sentinel "access denied"))) :=
  ⟨(C7_upload_creation_amended _ [] (ascii "id1") (ascii "a.txt") (ascii "n1") 3
      ⟨[1, 2, 3], none⟩ (Or.inr rfl)).2 [] rfl,
   (C7_upload_creation_amended _ [] (ascii "id1") (ascii "a.txt") (ascii "n1") 3
      ⟨[1, 2, 3], none⟩ (Or.inl (by decide))).1 [] _ rfl⟩

end minio
namespace strings

theorem Split_ne_nil (s : Bytes) (sep : Nat) : Split s sep ≠ [] := by
  cases s with
  | nil => simp [Split]
  | cons b rest =>
    simp only [Split]
    split
    · simp
    · split <;> simp

/-- A split into one part: the string has no separator. -/
theorem Split_one (sep : Nat) : ∀ (s a : Bytes), Split s sep = [a] → s = a ∧ sep ∉ a
  | [], a, h => by
    simp only [Split, List.cons.injEq, and_true] at h
    subst h
    simp
  | b :: rest, a, h => by
    simp only [Split] at h
    split at h
    · simp only [List.cons.injEq] at h
      exact absurd h.2 (Split_ne_nil rest sep)
    · rename_i hb
      split at h
      · rename_i hnil
        exact absurd hnil (Split_ne_nil rest sep)
      · rename_i part parts hrest
        simp only [List.cons.injEq] at h
        obtain ⟨rfl, rfl⟩ := h
        obtain ⟨rfl, hnot⟩ := Split_one sep rest part hrest
        refine ⟨rfl, ?_⟩
        simp only [List.mem_cons, not_or]
        exact ⟨fun e => hb e.symm, hnot⟩

/-- A split into two parts: the string is the first part, one separator and the second
part, and neither part has a separator. -/
theorem Split_two (sep : Nat) : ∀ (s a b : Bytes), Split s sep = [a, b] →
    s = a ++ sep :: b ∧ sep ∉ a ∧ sep ∉ b
  | [], a, b, h => by simp [Split] at h
  | c :: rest, a, b, h => by
    simp only [Split] at h
    split at h
    · rename_i hc
      simp only [List.cons.injEq] at h
      obtain ⟨rfl, h2⟩ := h
      obtain ⟨rfl, hnot⟩ := Split_one sep rest b h2
      subst hc
      simp [hnot]
    · rename_i hc
      split at h
      · rename_i hnil
        exact absurd hnil (Split_ne_nil rest sep)
      · rename_i part parts hrest
        simp only [List.cons.injEq] at h
        obtain ⟨rfl, rfl⟩ := h
        obtain ⟨rfl, hna, hnb⟩ := Split_two sep rest part b hrest
        refine ⟨rfl, ?_, hnb⟩
        simp only [List.mem_cons, not_or]
        exact ⟨fun e => hc e.symm, hna⟩

/-- A string without separator splits into itself. -/
theorem Split_of_not_mem (sep : Nat) : ∀ (s : Bytes), sep ∉ s → Split s sep = [s]
  | [], _ => rfl
  | b :: rest, h => by
    simp only [List.mem_cons, not_or] at h
    have hne : ¬ b = sep := fun e => h.1 e.symm
    simp [Split, hne, Split_of_not_mem sep rest h.2]

/-- Two parts without separator, joined by one separator, split into the two parts. -/
theorem Split_append (sep : Nat) : ∀ (a b : Bytes), sep ∉ a → sep ∉ b →
    Split (a ++ sep :: b) sep = [a, b]
  | [], b, _, hb => by simp [Split, Split_of_not_mem sep b hb]
  | c :: a, b, ha, hb => by
    simp only [List.mem_cons, not_or] at ha
    have hne : ¬ c = sep := fun e => ha.1 e.symm
    simp [Split, hne, Split_append sep a b ha.2 hb]

end strings
namespace rest

/-- The key function of `parseToken` never hands a `*rsa.PublicKey` to the library, so
`parseToken` returns an error for every token string and every key. -/
theorem parseToken_error (lib : jwt.Lib) (accessToken : Bytes) (key : Nat) :
    ∃ err, parseToken lib accessToken key = .error err ∧
      errorsIs lib.unwrapsInner err common.ErrInvalidAccessToken =
        (match lib.ParseUnverified accessToken with
         | .error e => errorsIs lib.unwrapsInner e common.ErrInvalidAccessToken
         | .ok _ => false) := by
  unfold parseToken jwt.ParseWithClaims
  cases hp : lib.ParseUnverified accessToken with
  | error e => exact ⟨e, rfl, rfl⟩
  | ok token =>
    simp only
    have hno : ∀ (n : Nat) (e : Error), e ≠ common.ErrInvalidAccessToken →
        (∀ m i, e ≠ Error.wrap m i) → (∀ m i, e ≠ Error.validation m i) →
        errorsIs lib.unwrapsInner (Error.validation n e) common.ErrInvalidAccessToken = false := by
      intro n e h1 h2 h3
      have h4 : errorsIs lib.unwrapsInner e common.ErrInvalidAccessToken = false := by
        cases e with
        | wrap m i => exact absurd rfl (h2 m i)
        | validation m i => exact absurd rfl (h3 m i)
        | EOF => simp [errorsIs, common.ErrInvalidAccessToken]
        | sentinel t => simpa [errorsIs] using h1
        | app a => simp [errorsIs, common.ErrInvalidAccessToken]
        | validationText m t => simp [errorsIs, common.ErrInvalidAccessToken]
      simp only [errorsIs, common.ErrInvalidAccessToken, h4]
      simp only [reduceCtorEq, if_false, Bool.if_false_right, Bool.and_eq_false_imp]
      exact fun _ => by simpa [common.ErrInvalidAccessToken] using h1
    by_cases hm : token.Method = jwt.SigningMethod.rsa
    · simp only [hm, if_true, jwt.Verify, jwt.SigningMethodRSA.Verify]
      by_cases hd : token.signatureDecodes = false
      · exact ⟨.validation (token.claimsErrors ||| jwt.ValidationErrorSignatureInvalid)
          jwt.ErrDecodeSegment, by simp [hd],
          hno _ _ (by decide) (by intro m i; simp [jwt.ErrDecodeSegment])
            (by intro m i; simp [jwt.ErrDecodeSegment])⟩
      · exact ⟨.validation (token.claimsErrors ||| jwt.ValidationErrorSignatureInvalid)
          jwt.ErrInvalidKeyType, by simp [hd],
          hno _ _ (by decide) (by intro m i; simp [jwt.ErrInvalidKeyType])
            (by intro m i; simp [jwt.ErrInvalidKeyType])⟩
    · exact ⟨.validation jwt.ValidationErrorUnverifiable common.ErrInvalidSigningMethod,
        by simp [hm, common.ErrInvalidSigningMethod],
        hno _ _ (by decide) (by intro m i; simp [common.ErrInvalidSigningMethod])
          (by intro m i; simp [common.ErrInvalidSigningMethod])⟩

/-- The middleware never calls the downstream handler. -/
theorem auth_served (lib : jwt.Lib) (key : Nat) (authorization : List Bytes) :
    (auth lib key authorization).served = [] := by
  unfold auth
  simp only
  split
  · rfl
  · split
    · rfl
    · split
      · rfl
      · obtain ⟨err, herr, _⟩ := parseToken_error lib
          ((strings.Split (headerGet authorization) 32).getD 1 []) key
        rw [herr]
        simp only
        split <;> rfl

end rest
namespace rest

/-- C8 fails on the code: for the header Bearer followed by a token that is RSA-signed
with the private key of the gate's key pair and carries the identity u1, the
middleware answers 500 and does not call the downstream handler, whether or not
`ValidationError` unwraps; handed the key itself, the library accepts the same token. -/
theorem C8_valid_token_rejected :
    auth (fixture.lib true) 1 [ascii "Bearer signed-by-1.u1"] =
      ⟨some 500, some "Internal server error", [ascii "signed-by-1.u1"], []⟩ ∧
    auth (fixture.lib false) 1 [ascii "Bearer signed-by-1.u1"] =
      ⟨some 500, some "Internal server error", [ascii "signed-by-1.u1"], []⟩ ∧
    parseToken (fixture.lib true) (ascii "signed-by-1.u1") 1 =
      .error (.validation jwt.ValidationErrorSignatureInvalid jwt.ErrInvalidKeyType) ∧
    (jwt.ParseWithClaims (fixture.lib true) (ascii "signed-by-1.u1")
      (fun _ => .ok (jwt.KeyValue.rsaPublicKey 1))).toOption.map
        (fun token => (token.Valid, token.ID)) = some (true, ascii "u1") :=
  ⟨by decide, by decide, rfl, by decide⟩

/-- C9 fails on the code: for the header Bearer followed by a token that is RSA-signed
with the private key of another key pair, the middleware answers 500, not 401; the
downstream handler is not called. Handed the key itself, the library reports the
failed verification in a `ValidationError`, which is not `ErrInvalidAccessToken`. -/
theorem C9_wrong_key_internal_error :
    auth (fixture.lib true) 1 [ascii "Bearer signed-by-2.u1"] =
      ⟨some 500, some "Internal server error", [ascii "signed-by-2.u1"], []⟩ ∧
    auth (fixture.lib false) 1 [ascii "Bearer signed-by-2.u1"] =
      ⟨some 500, some "Internal server error", [ascii "signed-by-2.u1"], []⟩ ∧
    jwt.ParseWithClaims (fixture.lib true) (ascii "signed-by-2.u1")
      (fun _ => .ok (jwt.KeyValue.rsaPublicKey 1)) =
      .error (.validation jwt.ValidationErrorSignatureInvalid jwt.ErrVerification) ∧
    errorsIs true (.validation jwt.ValidationErrorSignatureInvalid jwt.ErrVerification)
      common.ErrInvalidAccessToken = false :=
  ⟨by decide, by decide, rfl, by decide⟩

/-- C10: a request whose header Authorization is missing or empty, or does not split
on single spaces into exactly two parts, or whose first part is not Bearer, is answered
401 without any call of `parseToken` or of the downstream handler; `parseToken` is
called only on the second part `x` of a header Bearer, one space, `x`, where `x` has no
space, and it is called on every such header. -/
theorem C10_header_format (lib : jwt.Lib) (key : Nat) (authorization : List Bytes) :
    ((headerGet authorization = [] ∨
        (strings.Split (headerGet authorization) 32).length ≠ 2 ∨
        (strings.Split (headerGet authorization) 32).getD 0 [] ≠ ascii "Bearer") →
      auth lib key authorization = ⟨some 401, some "Unauthorized", [], []⟩) ∧
    (∀ x ∈ (auth lib key authorization).parsed,
      headerGet authorization = ascii "Bearer" ++ 32 :: x ∧ 32 ∉ x ∧
      (auth lib key authorization).parsed = [x]) ∧
    (∀ x, 32 ∉ x → headerGet authorization = ascii "Bearer" ++ 32 :: x →
      (auth lib key authorization).parsed = [x]) := by
  refine ⟨?_, ?_, ?_⟩
  · intro h
    unfold auth
    simp only
    by_cases h1 : headerGet authorization = []
    · rw [if_pos h1]
    · by_cases h2 : (strings.Split (headerGet authorization) 32).length ≠ 2
      · rw [if_neg h1, if_pos h2]
      · have h3 : (strings.Split (headerGet authorization) 32).getD 0 [] ≠ ascii "Bearer" := by
          rcases h with h | h | h
          · exact absurd h h1
          · exact absurd h h2
          · exact h
        rw [if_neg h1, if_neg h2, if_pos h3]
  · intro x hx
    unfold auth at hx ⊢
    simp only at hx ⊢
    by_cases h1 : headerGet authorization = []
    · rw [if_pos h1] at hx
      simp at hx
    · by_cases h2 : (strings.Split (headerGet authorization) 32).length ≠ 2
      · rw [if_neg h1, if_pos h2] at hx
        simp at hx
      · by_cases h3 : (strings.Split (headerGet authorization) 32).getD 0 [] ≠ ascii "Bearer"
        · rw [if_neg h1, if_neg h2, if_pos h3] at hx
          simp at hx
        · rw [if_neg h1, if_neg h2, if_neg h3] at hx ⊢
          have hshape : ∃ a b, strings.Split (headerGet authorization) 32 = [a, b] := by
            have hl : (strings.Split (headerGet authorization) 32).length = 2 := by
              simpa using h2
            match hs : strings.Split (headerGet authorization) 32, hl with
            | [a, b], _ => exact ⟨a, b, rfl⟩
          obtain ⟨a, b, hab⟩ := hshape
          have ha : a = ascii "Bearer" := by
            have := h3
            rw [hab] at this
            simpa using this
          obtain ⟨hsplit, _, hnb⟩ := strings.Split_two 32 _ a b hab
          rw [hab] at hx ⊢
          simp only [List.getD_cons_succ, List.getD_cons_zero] at hx ⊢
          have hxb : x = b ∧
              (match parseToken lib b key with
                | .ok id => (⟨none, none, [b], [id]⟩ : Outcome)
                | .error err =>
                  if errorsIs lib.unwrapsInner err common.ErrInvalidAccessToken then
                    ⟨some 401, some "Unauthorized", [b], []⟩
                  else ⟨some 500, some "Internal server error", [b], []⟩).parsed = [b] := by
            cases hp : parseToken lib b key with
            | ok id => simp only [hp] at hx; exact ⟨by simpa using hx, rfl⟩
            | error err =>
              simp only [hp] at hx ⊢
              split <;> rename_i he <;> simp only [he, if_true, if_false] at hx <;>
                exact ⟨by simpa using hx, rfl⟩
          obtain ⟨rfl, hparsed⟩ := hxb
          exact ⟨by rw [hsplit, ha], hnb, hparsed⟩
  · intro x hx hhead
    have hsplit : strings.Split (ascii "Bearer" ++ 32 :: x) 32 = [ascii "Bearer", x] :=
      strings.Split_append 32 _ x (by decide) hx
    unfold auth
    simp only [hhead, hsplit]
    rw [if_neg (by simp), if_neg (by simp), if_neg (by simp [List.getD])]
    generalize parseToken lib ([ascii "Bearer", x].getD 1 []) key = r
    cases r with
    | ok id => rfl
    | error err => simp only; split <;> rfl

/-- C10 on concrete headers: no header, an empty header, a bare token, three parts, a
scheme in lower case and another scheme are answered 401 without a call of
`parseToken`; the header Bearer signed-by-1.u1 reaches `parseToken` with the token. -/
theorem C10_header_format_witness :
    auth (fixture.lib true) 1 [] = ⟨some 401, some "Unauthorized", [], []⟩ ∧
    auth (fixture.lib true) 1 [ascii ""] = ⟨some 401, some "Unauthorized", [], []⟩ ∧
    auth (fixture.lib true) 1 [ascii "signed-by-1.u1"] =
      ⟨some 401, some "Unauthorized", [], []⟩ ∧
    auth (fixture.lib true) 1 [ascii "Bearer signed-by-1.u1 x"] =
      ⟨some 401, some "Unauthorized", [], []⟩ ∧
    auth (fixture.lib true) 1 [ascii "bearer signed-by-1.u1"] =
      ⟨some 401, some "Unauthorized", [], []⟩ ∧
    auth (fixture.lib true) 1 [ascii "Basic signed-by-1.u1"] =
      ⟨some 401, some "Unauthorized", [], []⟩ ∧
    (auth (fixture.lib true) 1 [ascii "Bearer signed-by-1.u1"]).parsed =
      [ascii "signed-by-1.u1"] :=
  ⟨(C10_header_format _ 1 []).1 (Or.inl rfl),
   (C10_header_format _ 1 [ascii ""]).1 (Or.inl rfl),
   (C10_header_format _ 1 [ascii "signed-by-1.u1"]).1 (Or.inr (Or.inl (by decide))),
   (C10_header_format _ 1 [ascii "Bearer signed-by-1.u1 x"]).1 (Or.inr (Or.inl (by decide))),
   (C10_header_format _ 1 [ascii "bearer signed-by-1.u1"]).1 (Or.inr (Or.inr (by decide))),
   (C10_header_format _ 1 [ascii "Basic signed-by-1.u1"]).1 (Or.inr (Or.inr (by decide))),
   (C10_header_format _ 1 [ascii "Bearer signed-by-1.u1"]).2.2 (ascii "signed-by-1.u1")
     (by decide) rfl⟩

end rest
namespace rest

/-- C11: for every token whose header declares a signing method other than RSA,
whatever its claims and its signature, `parseToken` returns the error of the key
function and no identity; for a request that carries such a token after Bearer the
middleware writes an error response and does not call the downstream handler. -/
theorem C11_non_rsa_rejected (lib : jwt.Lib) (key : Nat) (accessToken : Bytes)
    (token : jwt.Token) (hparse : lib.ParseUnverified accessToken = .ok token)
    (hmethod : token.Method ≠ jwt.SigningMethod.rsa) :
    parseToken lib accessToken key =
      .error (.validation jwt.ValidationErrorUnverifiable common.ErrInvalidSigningMethod) ∧
    (∀ id, parseToken lib accessToken key ≠ .ok id) ∧
    (∀ authorization, headerGet authorization = ascii "Bearer" ++ 32 :: accessToken →
      (auth lib key authorization).served = [] ∧
      (auth lib key authorization).status ≠ none) := by
  have hp : parseToken lib accessToken key =
      .error (.validation jwt.ValidationErrorUnverifiable common.ErrInvalidSigningMethod) := by
    unfold parseToken jwt.ParseWithClaims
    simp [hparse, hmethod, common.ErrInvalidSigningMethod]
  refine ⟨hp, fun id h => (by rw [hp] at h; cases h), fun authorization hhead => ?_⟩
  refine ⟨auth_served lib key authorization, ?_⟩
  unfold auth
  simp only
  split
  · simp
  · split
    · simp
    · split
      · simp
      · obtain ⟨err, herr, _⟩ := parseToken_error lib
          ((strings.Split (headerGet authorization) 32).getD 1 []) key
        rw [herr]
        simp only
        split <;> simp

/-- C11 on an HS256 token that the HMAC method would accept: `parseToken` returns the
error of the key function, the middleware answers 500 and calls nothing. -/
theorem C11_non_rsa_rejected_witness :
    parseToken (fixture.libHmac true) (ascii "hmac.u1") 1 =
      .error (.validation jwt.ValidationErrorUnverifiable common.ErrInvalidSigningMethod) ∧
    auth (fixture.libHmac true) 1 [ascii "Bearer hmac.u1"] =
      ⟨some 500, some "Internal server error", [ascii "hmac.u1"], []⟩ ∧
    (auth (fixture.libHmac true) 1 [ascii "Bearer hmac.u1"]).served = [] :=
  have h := C11_non_rsa_rejected (fixture.libHmac true) 1 (ascii "hmac.u1")
    { Method := .hmac, ID := ascii "u1", claimsErrors := 0, claimsInner := .sentinel ""
      signatureDecodes := true, signedBy := none, Valid := false } rfl (by decide)
  ⟨h.1, by decide, (h.2.2 [ascii "Bearer hmac.u1"] rfl).1⟩

end rest

namespace storage

variable {σ : Type}

/-- The statements of `minioStorage.GetFile` after the object was obtained compute the
file from an object whose `Stat` answers the key `k`, the size `n` and the metadata `m`
and whose one `Read` ends with nil or end-of-stream: ID `k`, Name the entry Name of `m`
(empty when absent), Size `n` and a buffer of exactly `n` bytes that starts with the
bytes the read delivered and is zero after them, however few bytes were delivered. -/
theorem GetFile_fromObject_fields (obj : sdk.Object) (k : Bytes) (n : Nat)
    (m : List (Bytes × Bytes)) (hstat : obj.Stat = .ok ⟨k, n, m⟩)
    (hread : (obj.Read n).2 = none ∨ (obj.Read n).2 = some Error.EOF) :
    ∃ f, minioStorage.GetFile.fromObject obj = .ok f ∧
      f.ID = k ∧ f.Name = sdk.mapGet m (ascii "Name") ∧ f.Size = n ∧
      f.Bytes.length = n ∧
      f.Bytes = (obj.Read n).1.take n ++
        List.replicate (n - ((obj.Read n).1.take n).length) 0 ∧
      (m.lookup (ascii "Name") = none → f.Name = []) ∧
      (∀ v, m.lookup (ascii "Name") = some v → f.Name = v) := by
  have hne : ¬ ((obj.readInto n).2 ≠ none ∧ (obj.readInto n).2 ≠ some Error.EOF) := by
    have : (obj.readInto n).2 = (obj.Read n).2 := rfl
    rw [this]
    rcases hread with h | h <;> simp [h]
  refine ⟨⟨k, sdk.mapGet m (ascii "Name"), n, (obj.readInto n).1⟩, ?_, rfl, rfl, rfl, ?_, rfl,
    ?_, ?_⟩
  · simp only [minioStorage.GetFile.fromObject, hstat]
    rw [if_neg hne]
  · simp only [sdk.Object.readInto, List.length_append, List.length_replicate, List.length_take]
    omega
  · intro hnone
    simp [sdk.mapGet, hnone]
  · intro v hv
    simp [sdk.mapGet, hv]

/-- C12 fails on the code: for an object that opens and, on a live context, answers
`Stat` with the key k1, five declared bytes and the name a.txt and delivers two bytes
and end-of-stream, `minioStorage.GetFile` returns the wrapped `context.Canceled` and no
file; the statements that follow the opening make the file of the claim from that
object, and so does the listing of the note, which opens it on a live context. -/
theorem C12_GetFile_returns_no_file :
    minioStorage.GetFile
      (scripted.client
        { listing := [⟨none, ascii "k1"⟩]
          opening := fun _ => .ok
            { Stat := .ok ⟨ascii "k1", 5, [(ascii "Name", ascii "a.txt")]⟩
              Read := fun _ => ([7, 8], some Error.EOF) }
          bucketExists := (true, none), makeBucket := none, putObject := none })
      [] (ascii "note-0001") (ascii "k1") =
      .error (.wrap "failed to get file. err: %w" sdk.Canceled) ∧
    minioStorage.GetFile.fromObject
      { Stat := .ok ⟨ascii "k1", 5, [(ascii "Name", ascii "a.txt")]⟩
        Read := fun _ => ([7, 8], some Error.EOF) } =
      .ok { ID := ascii "k1", Name := ascii "a.txt", Size := 5, Bytes := [7, 8, 0, 0, 0] } ∧
    minioStorage.GetFilesByNoteUUID
      (scripted.client
        { listing := [⟨none, ascii "k1"⟩]
          opening := fun _ => .ok
            { Stat := .ok ⟨ascii "k1", 5, [(ascii "Name", ascii "a.txt")]⟩
              Read := fun _ => ([7, 8], some Error.EOF) }
          bucketExists := (true, none), makeBucket := none, putObject := none })
      [] (ascii "note-0001") =
      .ok [{ ID := ascii "k1", Name := ascii "a.txt", Size := 5, Bytes := [7, 8, 0, 0, 0] }] :=
  ⟨rfl, rfl, rfl⟩

/-- C13: `NewFile` returns an error exactly when draining the upload stream fails, and
then the error wraps the failure and no file is returned; when the reader delivers its
bytes without error the file has the name and the size of the description as they were
declared and the delivered bytes, whatever the declared size. -/
theorem C13_NewFile_result (dto : CreateFileDTO) :
    ((∃ e, NewFile dto = .error e) ↔ dto.Reader.err ≠ none) ∧
    (∀ e, dto.Reader.err = some e →
      NewFile dto = .error (.wrap "failed to create file model. err: %w" e)) ∧
    (dto.Reader.err = none →
      ∃ f, NewFile dto = .ok f ∧ f.Name = dto.Name ∧ f.Bytes = dto.Reader.data ∧
        f.Size = dto.Size) := by
  obtain ⟨name, size, data, err⟩ := dto
  cases err with
  | none =>
    refine ⟨?_, ?_, fun _ => ⟨_, NewFile_ok name data size, rfl, rfl, rfl⟩⟩
    · rw [NewFile_ok]; simp
    · intro e h; cases h
  | some e =>
    have h : NewFile ⟨name, size, ⟨data, some e⟩⟩ =
        .error (.wrap "failed to create file model. err: %w" e) := rfl
    refine ⟨?_, ?_, fun h => by cases h⟩
    · rw [h]; simp
    · intro e2 h2
      simp only [Option.some.injEq] at h2
      subst h2
      exact h

/-- C13 on a description that declares 100 bytes and delivers three, and on one whose
reader fails. -/
theorem C13_NewFile_result_witness :
    (∃ f, NewFile ⟨ascii "a.txt", 100, ⟨[1, 2, 3], none⟩⟩ = .ok f ∧ f.Name = ascii "a.txt" ∧
      f.Bytes = [1, 2, 3] ∧ f.Size = 100) ∧
    NewFile ⟨ascii "a.txt", 3, ⟨[1, 2], some (.sentinel "unexpected EOF")⟩⟩ =
      .error (.wrap "failed to create file model. err: %w" (.sentinel "unexpected EOF")) :=
  ⟨(C13_NewFile_result ⟨ascii "a.txt", 100, ⟨[1, 2, 3], none⟩⟩).2.2 rfl,
   (C13_NewFile_result ⟨ascii "a.txt", 3, ⟨[1, 2], some (.sentinel "unexpected EOF")⟩⟩).2.1
     _ rfl⟩

/-- C17: the identifier `NewFile` returns depends on the name and on the delivered bytes
only: for any two declared sizes the two files have the same identifier. -/
theorem C17_ID_independent_of_size (name content : Bytes) (size1 size2 : Int) :
    ∃ f1 f2, NewFile ⟨name, size1, ⟨content, none⟩⟩ = .ok f1 ∧
      NewFile ⟨name, size2, ⟨content, none⟩⟩ = .ok f2 ∧ f1.ID = f2.ID :=
  ⟨_, _, NewFile_ok name content size1, NewFile_ok name content size2, rfl⟩

/-- C18: name and content are hashed with nothing between them, so two pairs whose
concatenations are equal get the same identifier. -/
theorem C18_no_separator (n1 c1 n2 c2 : Bytes) (size1 size2 : Int)
    (hcat : n1 ++ c1 = n2 ++ c2) :
    ∃ f1 f2, NewFile ⟨n1, size1, ⟨c1, none⟩⟩ = .ok f1 ∧
      NewFile ⟨n2, size2, ⟨c2, none⟩⟩ = .ok f2 ∧ f1.ID = f2.ID := by
  refine ⟨_, _, NewFile_ok n1 c1 size1, NewFile_ok n2 c2 size2, ?_⟩
  show base64.EncodeToString (sha256.Sum256 (n1 ++ c1)) =
    base64.EncodeToString (sha256.Sum256 (n2 ++ c2))
  rw [hcat]

/-- C18 on the pairs ab, c and a, bc: the pairs differ and the identifiers agree. -/
theorem C18_no_separator_witness :
    (ascii "ab", ascii "c") ≠ (ascii "a", ascii "bc") ∧
    ∃ f1 f2, NewFile ⟨ascii "ab", 1, ⟨ascii "c", none⟩⟩ = .ok f1 ∧
      NewFile ⟨ascii "a", 2, ⟨ascii "bc", none⟩⟩ = .ok f2 ∧ f1.ID = f2.ID :=
  ⟨by decide, C18_no_separator (ascii "ab") (ascii "c") (ascii "a") (ascii "bc") 1 2
    (by decide)⟩

end storage
namespace memstore

theorem putKey_putKey (objs : List (Bytes × Stored)) (key : Bytes) (v w : Stored) :
    putKey (putKey objs key v) key w = putKey objs key w := by
  simp [putKey, List.filter_cons, List.filter_filter]

theorem setBucket_setBucket (s : Store) (bucket : Bytes) (x y : List (Bytes × Stored)) :
    setBucket (setBucket s bucket x) bucket y = setBucket s bucket y := by
  simp [setBucket, List.filter_cons, List.filter_filter]

/-- The object stored under a key after a write is the written one, once. -/
theorem filter_putKey (objs : List (Bytes × Stored)) (key : Bytes) (v : Stored) :
    (putKey objs key v).filter (fun kv => kv.1 = key) = [(key, v)] := by
  simp [putKey, List.filter_cons, List.filter_filter]

/-- On the map store `Service.Create` with the true size succeeds from every state: it
leaves the container of the note with the object written under the derived key. -/
theorem Create_eq (s : Store) (note name B : Bytes) :
    storage.Service.Create client s note ⟨name, B.length, ⟨B, none⟩⟩ =
      (setBucket s note (putKey ((s.lookup note).getD [])
        (base64.EncodeToString (sha256.Sum256 (name ++ B))) ⟨B, [(ascii "Name", name)]⟩),
       none) := by
  simp only [storage.Service.Create, storage.NewFile_ok, storage.minioStorage.CreateFile,
    NewBuffer, minio.Client.UploadFile, minio.Client.UploadFile.put, client]
  cases h : s.lookup note with
  | none =>
    simp [h, List.lookup, setBucket, List.filter_cons]
  | some objs =>
    simp [h]

end memstore

namespace storage

/-- C14: on the map store, from every state, `Service.Create` of a name and a content
`B` with its true size succeeds, a second `Service.Create` of the same succeeds and
leaves the state as the first left it, and the container of the note then holds
exactly one object under the derived identifier, with content `B`. -/
theorem C14_idempotent_overwrite (s : memstore.Store) (note name B : Bytes) :
    ∃ s1 f0, NewFile ⟨name, B.length, ⟨B, none⟩⟩ = .ok f0 ∧
      Service.Create memstore.client s note ⟨name, B.length, ⟨B, none⟩⟩ = (s1, none) ∧
      Service.Create memstore.client s1 note ⟨name, B.length, ⟨B, none⟩⟩ = (s1, none) ∧
      (∃ objs, s1.lookup note = some objs ∧
        objs.filter (fun kv => kv.1 = f0.ID) = [(f0.ID, ⟨B, [(ascii "Name", name)]⟩)]) := by
  refine ⟨_, _, NewFile_ok name B B.length, memstore.Create_eq s note name B, ?_, ?_⟩
  · rw [memstore.Create_eq, memstore.lookup_setBucket]
    simp only [Option.getD_some, memstore.putKey_putKey, memstore.setBucket_setBucket]
  · exact ⟨_, memstore.lookup_setBucket _ _ _, memstore.filter_putKey _ _ _⟩

set_option maxRecDepth 100000 in
/-- C14 on the empty map store: the note note-0001, the name a.txt and the bytes 1, 2,
3, created twice. -/
theorem C14_idempotent_overwrite_witness :
    Service.Create memstore.client
      (Service.Create memstore.client [] (ascii "note-0001")
        ⟨ascii "a.txt", 3, ⟨[1, 2, 3], none⟩⟩).1
      (ascii "note-0001") ⟨ascii "a.txt", 3, ⟨[1, 2, 3], none⟩⟩ =
      ([(ascii "note-0001", [(ascii "lItPVe58_nj6VXW8xGpthv7IMa3c0Xo0791w4OfWSgY=",
          ⟨[1, 2, 3], [(ascii "Name", ascii "a.txt")]⟩)])], none) := by
  obtain ⟨s1, f0, h0, h1, h2, _⟩ := C14_idempotent_overwrite [] (ascii "note-0001")
    (ascii "a.txt") [1, 2, 3]
  have h1v : Service.Create memstore.client [] (ascii "note-0001")
      ⟨ascii "a.txt", 3, ⟨[1, 2, 3], none⟩⟩ =
      ([(ascii "note-0001", [(ascii "lItPVe58_nj6VXW8xGpthv7IMa3c0Xo0791w4OfWSgY=",
          ⟨[1, 2, 3], [(ascii "Name", ascii "a.txt")]⟩)])], none) := by decide
  have hs : s1 = [(ascii "note-0001", [(ascii "lItPVe58_nj6VXW8xGpthv7IMa3c0Xo0791w4OfWSgY=",
      ⟨[1, 2, 3], [(ascii "Name", ascii "a.txt")]⟩)])] := by
    have := h1.symm.trans h1v
    exact (Prod.mk.inj this).1
  rw [h1v]
  subst hs
  exact h2

end storage
namespace apperror

/-- What `HandleError` does, case by case: nothing for nil; 404 and 409 when the chain
contains the sentinel; 400 for another `AppError` passed as it is; a panic for another
`AppError` inside a wrapping error; 418 when the chain has no `AppError`. -/
theorem HandleError_cases (u : Bool) (err : Error) :
    HandleError u none = .nothing ∧
    (errorsAs u err = none → HandleError u (some err) = .response 418 (.system err)) ∧
    (errorsAs u err ≠ none → errorsIs u err ErrNotFound = true →
      HandleError u (some err) = .response 404 (.marshal .notFound)) ∧
    (errorsAs u err ≠ none → errorsIs u err ErrNotFound = false →
      errorsIs u err ErrAlreadyExist = true →
      HandleError u (some err) = .response 409 (.marshal .notFound)) ∧
    (errorsAs u err ≠ none → errorsIs u err ErrNotFound = false →
      errorsIs u err ErrAlreadyExist = false →
      HandleError u (some err) =
        match err with
        | .app e => .response 400 (.marshal e)
        | _ => .panic) := by
  refine ⟨rfl, ?_, ?_, ?_, ?_⟩
  · intro h
    simp [HandleError, h]
  · intro h1 h2
    obtain ⟨a, ha⟩ := Option.ne_none_iff_exists'.1 h1
    simp [HandleError, ha, h2]
  · intro h1 h2 h3
    obtain ⟨a, ha⟩ := Option.ne_none_iff_exists'.1 h1
    simp [HandleError, ha, h2, h3]
  · intro h1 h2 h3
    obtain ⟨a, ha⟩ := Option.ne_none_iff_exists'.1 h1
    simp only [HandleError, ha, h2, h3]
    cases err <;> simp

/-- C19 fails on the code: for a validation error inside a wrapping error the chain
contains an `AppError` and neither sentinel, and `HandleError` panics at its type
assertion instead of writing 400; the other cases of the claim are as it says. -/
theorem C19_wrapped_AppError_panics :
    HandleError true (some (.wrap "create: %w" (BadRequestError "file required"))) = .panic ∧
    HandleError false (some (.wrap "create: %w" (BadRequestError "file required"))) = .panic ∧
    errorsAs true (.wrap "create: %w" (BadRequestError "file required")) =
      some (.badRequest "file required") ∧
    HandleError true none = .nothing ∧
    HandleError true (some ErrNotFound) = .response 404 (.marshal .notFound) ∧
    HandleError true (some (.wrap "list: %w" ErrNotFound)) = .response 404 (.marshal .notFound) ∧
    HandleError true (some ErrAlreadyExist) = .response 409 (.marshal .notFound) ∧
    HandleError true (some (BadRequestError "file required")) =
      .response 400 (.marshal (.badRequest "file required")) ∧
    HandleError true (some (.sentinel "connection refused")) =
      .response 418 (.system (.sentinel "connection refused")) := by
  decide

end apperror
namespace rest

variable {σ : Type}

/-- The three handlers that read the query parameter answer a request without note
identifier with the validation error and do not call the File Service. -/
theorem note_required (u : Bool) (c : sdk.Client σ) (s : σ) (r : Request)
    (hnote : r.queryNoteUUID = []) :
    (getFile u c s r).reply = .handled (.response 400
      (.marshal (.badRequest "note_uuid query parameter is required"))) ∧
    (getFile u c s r).calls = [] ∧
    (getFilesByNoteUUID u c s r).reply = .handled (.response 400
      (.marshal (.badRequest "note_uuid query parameter is required"))) ∧
    (getFilesByNoteUUID u c s r).calls = [] ∧
    (deleteFile u c s r).reply = .handled (.response 400
      (.marshal (.badRequest "note_uuid query parameter is required"))) ∧
    (deleteFile u c s r).calls = [] := by
  have hh : apperror.HandleError u
      (some (apperror.BadRequestError "note_uuid query parameter is required")) =
      .response 400 (.marshal (.badRequest "note_uuid query parameter is required")) := by
    cases u <;> rfl
  simp [getFile, getFilesByNoteUUID, deleteFile, hnote, hh]

/-- The handler `createFile` calls the File Service with the form value note_uuid as the
note, whatever it is, once the form holds a file that opens. -/
theorem createFile_calls (u : Bool) (c : sdk.Client σ) (s : σ) (r : Request)
    (fileInfo : FileHeader) (more : List FileHeader) (fileReader : Reader)
    (hparse : r.parseMultipartForm = none) (hfiles : r.formFiles = some (fileInfo :: more))
    (hopen : fileInfo.Open = .ok fileReader) :
    (createFile u c s r).calls =
      [.Create r.formNoteUUID ⟨fileInfo.Filename, fileInfo.Size, fileReader⟩] := by
  unfold createFile
  simp only [hparse, hfiles, hopen]
  split <;> rfl

set_option maxRecDepth 100000 in
/-- C15 fails on the code for `createFile`: for a request without note identifier that
carries a file, the handler calls `Service.Create` with the empty note; on a store that
refuses the empty container name the answer is 418 with a system error, on the map
store the file is stored in a container with the empty name and the answer is 201.
The three other handlers answer the same request with the validation error and call
nothing. -/
theorem C15_createFile_missing_note :
    (createFile true (scripted.client fixture.refusing) [] fixture.noNote).calls =
      [.Create [] ⟨ascii "a.txt", 3, ⟨[1, 2, 3], none⟩⟩] ∧
    (createFile true (scripted.client fixture.refusing) [] fixture.noNote).reply =
      .handled (.response 418 (.system (.wrap "failed to create new bucket. err: %w"
        (.sentinel "Bucket name cannot be empty")))) ∧
    (createFile true memstore.client [] fixture.noNote).reply = .status 201 ∧
    (createFile true memstore.client [] fixture.noNote).store =
      [([], [(ascii "lItPVe58_nj6VXW8xGpthv7IMa3c0Xo0791w4OfWSgY=",
        ⟨[1, 2, 3], [(ascii "Name", ascii "a.txt")]⟩)])] ∧
    (getFile true memstore.client [] fixture.noNote).calls = [] ∧
    (getFilesByNoteUUID true memstore.client [] fixture.noNote).calls = [] ∧
    (deleteFile true memstore.client [] fixture.noNote).calls = [] ∧
    (getFile true memstore.client [] fixture.noNote).reply = .handled (.response 400
      (.marshal (.badRequest "note_uuid query parameter is required"))) := by
  decide

end rest
/-- An error is in its own chain. -/
theorem errorsIs_self (u : Bool) (e : Error) : errorsIs u e e = true := by
  cases e <;> simp [errorsIs]

/-- The chain of a wrapping error contains the chain of the wrapped error. -/
theorem errorsIs_wrap (u : Bool) (msg : String) (x e : Error) (h : errorsIs u x e = true) :
    errorsIs u (.wrap msg x) e = true := by
  simp only [errorsIs, h]
  split <;> rfl

namespace storage

variable {σ : Type}

/-- The File Service returns what the storage returns. -/
theorem Service_passes (c : sdk.Client σ) (s : σ) (noteUUID fileID : Bytes)
    (dto : CreateFileDTO) (file : File) (hfile : NewFile dto = .ok file) :
    Service.GetFile c s noteUUID fileID = minioStorage.GetFile c s noteUUID fileID ∧
    Service.GetFilesByNoteUUID c s noteUUID = minioStorage.GetFilesByNoteUUID c s noteUUID ∧
    Service.Create c s noteUUID dto = minio.Client.UploadFile c s file.ID file.Name noteUUID
      file.Size (NewBuffer file.Bytes) ∧
    Service.Delete c s noteUUID fileID = minio.Client.DeleteFile c s noteUUID fileID := by
  refine ⟨?_, ?_, ?_, ?_⟩
  · unfold Service.GetFile
    cases minioStorage.GetFile c s noteUUID fileID <;> rfl
  · unfold Service.GetFilesByNoteUUID
    cases minioStorage.GetFilesByNoteUUID c s noteUUID <;> rfl
  · unfold Service.Create minioStorage.CreateFile
    simp only [hfile]
    rcases minio.Client.UploadFile c s file.ID file.Name noteUUID file.Size
      (NewBuffer file.Bytes) with ⟨s1, _ | e⟩ <;> rfl
  · unfold Service.Delete minioStorage.DeleteFile
    rcases minio.Client.DeleteFile c s noteUUID fileID with ⟨s1, _ | e⟩ <;> rfl

/-- C16, as the claim states it, fails: the store's listing of the container reports a
failure and the listing returns `ErrNotFound`, whose chain does not contain the
failure; and when the existence check of an upload fails while creation and write
succeed, `Service.Create` returns no error. -/
theorem C16_counterexample :
    Service.GetFilesByNoteUUID
      (scripted.client
        { listing := [⟨some (.sentinel "connection refused"), []⟩]
          opening := fun _ => .error (.sentinel "connection refused")
          bucketExists := (true, none), makeBucket := none, putObject := none })
      [] (ascii "n1") = .error apperror.ErrNotFound ∧
    errorsIs true apperror.ErrNotFound (.sentinel "connection refused") = false ∧
    (Service.Create
      (scripted.client
        { listing := [], opening := fun _ => .error (.sentinel "connection refused")
          bucketExists := (false, some (.sentinel "connection refused"))
          makeBucket := none, putObject := none })
      [] (ascii "n1") ⟨ascii "a.txt", 3, ⟨[1, 2, 3], none⟩⟩).2 = none :=
  ⟨rfl, by decide, rfl⟩

end storage
namespace minio

variable {σ : Type}

/-- The two ways `Client.UploadFile` continues after an existence check that reports
the container as absent or fails. -/
theorem UploadFile_absent (c : sdk.Client σ) (s : σ)
    (fileID fileName bucketName : Bytes) (fileSize : Int) (reader : Reader)
    (habsent : (c.BucketExists s bucketName).2 ≠ none ∨ (c.BucketExists s bucketName).1 = false) :
    (∀ s1 err, c.MakeBucket s bucketName = (s1, some err) →
      Client.UploadFile c s fileID fileName bucketName fileSize reader =
        (s1, some (.wrap "failed to create new bucket. err: %w" err))) ∧
    (∀ s1, c.MakeBucket s bucketName = (s1, none) →
      Client.UploadFile c s fileID fileName bucketName fileSize reader =
        Client.UploadFile.put c s1 fileID fileName bucketName fileSize reader) := by
  constructor
  · intro s1 err hmk
    unfold Client.UploadFile
    simp only [if_pos habsent, hmk]
  · intro s1 hmk
    unfold Client.UploadFile
    simp only [if_pos habsent, hmk]

end minio

namespace storage

variable {σ : Type}

/-- C16 amended: in get, create and delete a failure of the store call that decides the
operation (open, stat or a read error other than end-of-stream; container creation or
write; removal) is returned inside the operation's error, and the File Service returns
the same error; in get the stat is made on the object `Client.GetFile` hands over, the
statements after it propagate the stat and read failures of every object, and for an
object that opens the failure is the `context.Canceled` of its stat; a failure of the
existence check of an upload is not returned, creation is attempted instead; the
listing never returns a failure of the store, it returns `ErrNotFound` or a list of
files, and the File Service returns the same. -/
theorem C16_propagation_amended (u : Bool) (c : sdk.Client σ) (s : σ)
    (noteUUID fileID : Bytes) (dto : CreateFileDTO) :
    (∀ e, c.GetObject s noteUUID fileID = .error e →
      ∃ err, Service.GetFile c s noteUUID fileID = .error err ∧
        minioStorage.GetFile c s noteUUID fileID = .error err ∧ errorsIs u err e = true) ∧
    (∀ obj e, minio.Client.GetFile c s noteUUID fileID = .ok obj → obj.Stat = .error e →
      ∃ err, Service.GetFile c s noteUUID fileID = .error err ∧
        minioStorage.GetFile c s noteUUID fileID = .error err ∧ errorsIs u err e = true) ∧
    (∀ obj, minio.Client.GetFile c s noteUUID fileID = .ok obj →
      Service.GetFile c s noteUUID fileID = minioStorage.GetFile.fromObject obj ∧
      minioStorage.GetFile c s noteUUID fileID = minioStorage.GetFile.fromObject obj) ∧
    (∀ obj info e, obj.Stat = .ok info →
      (obj.Read info.Size).2 = some e → e ≠ Error.EOF →
      ∃ err, minioStorage.GetFile.fromObject obj = .error err ∧ errorsIs u err e = true) ∧
    (∀ obj, c.GetObject s noteUUID fileID = .ok obj →
      ∃ err, Service.GetFile c s noteUUID fileID = .error err ∧
        minioStorage.GetFile c s noteUUID fileID = .error err ∧
        errorsIs u err sdk.Canceled = true) ∧
    (∀ file s1 e, NewFile dto = .ok file →
      ((c.BucketExists s noteUUID).2 ≠ none ∨ (c.BucketExists s noteUUID).1 = false) →
      c.MakeBucket s noteUUID = (s1, some e) →
      ∃ err, Service.Create c s noteUUID dto = (s1, some err) ∧
        minioStorage.CreateFile c s noteUUID file = (s1, some err) ∧ errorsIs u err e = true) ∧
    (∀ file s0 s2 e, NewFile dto = .ok file →
      (((c.BucketExists s noteUUID).2 = none ∧ (c.BucketExists s noteUUID).1 = true ∧ s0 = s) ∨
        (((c.BucketExists s noteUUID).2 ≠ none ∨ (c.BucketExists s noteUUID).1 = false) ∧
          c.MakeBucket s noteUUID = (s0, none))) →
      c.PutObject s0 noteUUID file.ID (NewBuffer file.Bytes) file.Size
        [(ascii "Name", file.Name)] = (s2, some e) →
      ∃ err, Service.Create c s noteUUID dto = (s2, some err) ∧
        minioStorage.CreateFile c s noteUUID file = (s2, some err) ∧ errorsIs u err e = true) ∧
    (∀ s1 e, c.RemoveObject s noteUUID fileID = (s1, some e) →
      ∃ err, Service.Delete c s noteUUID fileID = (s1, some err) ∧
        minioStorage.DeleteFile c s noteUUID fileID = (s1, some err) ∧
        errorsIs u err e = true) ∧
    ((minioStorage.GetFilesByNoteUUID c s noteUUID = .error apperror.ErrNotFound ∨
        ∃ files, minioStorage.GetFilesByNoteUUID c s noteUUID = .ok files) ∧
      Service.GetFilesByNoteUUID c s noteUUID = minioStorage.GetFilesByNoteUUID c s noteUUID) := by
  have hsvg : Service.GetFile c s noteUUID fileID = minioStorage.GetFile c s noteUUID fileID := by
    unfold Service.GetFile
    cases minioStorage.GetFile c s noteUUID fileID <;> rfl
  have hcreate : ∀ file, NewFile dto = .ok file →
      Service.Create c s noteUUID dto = minioStorage.CreateFile c s noteUUID file := by
    intro file hfile
    unfold Service.Create
    simp only [hfile]
    rcases minioStorage.CreateFile c s noteUUID file with ⟨s1, _ | e⟩ <;> rfl
  have hupload : ∀ file, minioStorage.CreateFile c s noteUUID file =
      minio.Client.UploadFile c s file.ID file.Name noteUUID file.Size (NewBuffer file.Bytes) := by
    intro file
    unfold minioStorage.CreateFile
    rcases minio.Client.UploadFile c s file.ID file.Name noteUUID file.Size
      (NewBuffer file.Bytes) with ⟨s1, _ | e⟩ <;> rfl
  refine ⟨?_, ?_, ?_, ?_, ?_, ?_, ?_, ?_, ?_⟩
  · intro e he
    refine ⟨.wrap "failed to get file. err: %w"
      (.wrap "failed to get file with id: %s from minio bucket %s. err: %w" e), ?_, ?_,
      errorsIs_wrap u _ _ _ (errorsIs_wrap u _ _ _ (errorsIs_self u e))⟩
    · rw [hsvg]; simp [minioStorage.GetFile, minio.Client.GetFile, he]
    · simp [minioStorage.GetFile, minio.Client.GetFile, he]
  · intro obj e hobj hstat
    have hg : minioStorage.GetFile c s noteUUID fileID =
        .error (.wrap "failed to get file. err: %w" e) := by
      simp [minioStorage.GetFile, hobj, minioStorage.GetFile.fromObject, hstat]
    exact ⟨_, hsvg.trans hg, hg, errorsIs_wrap u _ _ _ (errorsIs_self u e)⟩
  · intro obj hobj
    have hg : minioStorage.GetFile c s noteUUID fileID = minioStorage.GetFile.fromObject obj := by
      simp [minioStorage.GetFile, hobj]
    exact ⟨hsvg.trans hg, hg⟩
  · intro obj info e hstat hread hne
    have hr : (obj.readInto info.Size).2 = some e := hread
    refine ⟨.wrap "failed to get objects. err: %w" e, ?_,
      errorsIs_wrap u _ _ _ (errorsIs_self u e)⟩
    simp only [minioStorage.GetFile.fromObject, hstat]
    rw [if_pos (by simp [hr, hne])]
    simp [hr]
  · intro obj hobj
    have hg := GetFile_opened c s noteUUID fileID obj hobj
    exact ⟨_, hsvg.trans hg, hg, errorsIs_wrap u _ _ _ (errorsIs_self u sdk.Canceled)⟩
  · intro file s1 e hfile habsent hmk
    have hu := (minio.UploadFile_absent c s file.ID file.Name noteUUID file.Size
      (NewBuffer file.Bytes) habsent).1 s1 e hmk
    exact ⟨_, (hcreate file hfile).trans ((hupload file).trans hu), (hupload file).trans hu,
      errorsIs_wrap u _ _ _ (errorsIs_self u e)⟩
  · intro file s0 s2 e hfile hstate hput
    have hu : minio.Client.UploadFile c s file.ID file.Name noteUUID file.Size
        (NewBuffer file.Bytes) = (s2, some (.wrap "failed to upload file. err: %w" e)) := by
      rcases hstate with ⟨h1, h2, rfl⟩ | ⟨habsent, hmk⟩
      · unfold minio.Client.UploadFile
        simp only [h1, h2]
        rw [if_neg (by simp), minio.UploadFile_put_eq, hput]
        rfl
      · rw [(minio.UploadFile_absent c s file.ID file.Name noteUUID file.Size
          (NewBuffer file.Bytes) habsent).2 s0 hmk, minio.UploadFile_put_eq, hput]
        rfl
    exact ⟨_, (hcreate file hfile).trans ((hupload file).trans hu), (hupload file).trans hu,
      errorsIs_wrap u _ _ _ (errorsIs_self u e)⟩
  · intro s1 e hrm
    have hd : minio.Client.DeleteFile c s noteUUID fileID =
        (s1, some (.wrap "failed to delete file. err: %w" e)) := by
      simp [minio.Client.DeleteFile, hrm]
    have hs : minioStorage.DeleteFile c s noteUUID fileID =
        (s1, some (.wrap "failed to delete file. err: %w" e)) := by
      simp [minioStorage.DeleteFile, hd]
    exact ⟨_, by simp [Service.Delete, hs], hs, errorsIs_wrap u _ _ _ (errorsIs_self u e)⟩
  · constructor
    · rw [GetFilesByNoteUUID_eq]
      split
      · exact Or.inl rfl
      · exact Or.inr ⟨_, rfl⟩
    · unfold Service.GetFilesByNoteUUID
      cases minioStorage.GetFilesByNoteUUID c s noteUUID <;> rfl

/-- C16 amended on a scripted store whose `GetObject` fails: the error `Service.GetFile`
returns contains the failure of the store. -/
theorem C16_propagation_amended_witness :
    ∃ err, Service.GetFile
      (scripted.client
        { listing := [], opening := fun _ => .error (.sentinel "connection refused")
          bucketExists := (true, none), makeBucket := none, putObject := none })
      [] (ascii "n1") (ascii "k1") = .error err ∧
      errorsIs true err (.sentinel "connection refused") = true :=
  have h := (C16_propagation_amended true
    (scripted.client
      { listing := [], opening := fun _ => .error (.sentinel "connection refused")
        bucketExists := (true, none), makeBucket := none, putObject := none })
    [] (ascii "n1") (ascii "k1") ⟨ascii "a.txt", 3, ⟨[1, 2, 3], none⟩⟩).1
    (.sentinel "connection refused") rfl
  ⟨h.choose, h.choose_spec.1, h.choose_spec.2.2⟩

end storage
